import Mathlib

/-!
# Domeneshop client (domeneshop.go): embedding and verified properties

The Go package is a thin client over a registrar's HTTP API.  This file
embeds its data shapes, the record validator, the constructor and the five
API operations, and proves properties of them.

Conventions of the embedding

* Go `string` is `String`; Go `int` is `Int` (no arithmetic is performed on
  it, only comparison and decimal formatting).
* A Go `error` is `GoError`: `none` is `nil`, `some msg` is an error whose
  `Error()` text is `msg`.
* A Go slice is `Slice α`: `none` is the `nil` slice, `some xs` a slice
  holding `xs`.
* A Go pointer that may be `nil` is an `Option`: `none` is `nil`.  The
  receiver of a method and the `myhttp` value allocated by `New` are not
  `nil`.
* A function that may dereference `nil` returns an `Outcome`: either it
  returns a value or it panics.
* Effects are explicit: every operation takes the `World` before the call
  and gives the `World` after it.
* The transport (`myhttp`) is a parameter of the operations.  The decoder is
  a parameter too; `jsonUnmarshalDomains` and `jsonUnmarshalRecords` embed
  `json.Unmarshal` for the two slices the operations decode into.
-/

set_option linter.dupNamespace false
set_option maxRecDepth 100000

namespace Domeneshop

/-! ## Constants (domeneshop.go, lines 12-21) -/

/-- Message used when a required field is missing. -/
def ErrMissingRequiredField : String := "missing required field"

/-- Message `ErrNotSureYet`. -/
def ErrNotSureYet : String := "not sure what happend."

/-- Message `ErrDNSRecordNotFound`. -/
def ErrDNSRecordNotFound : String := "dns record does not exist."

/-- Message `ErrDNSRecordFailedValidation`. -/
def ErrDNSRecordFailedValidation : String := "dns record failed validation"

/-! ## Data shapes (domeneshop.go, lines 23-59) -/

/-- A Go `error` value: `none` is `nil`, `some msg` carries the message. -/
abbrev GoError := Option String

/-- A Go slice: `none` is the `nil` slice. -/
abbrev Slice (α : Type) := Option (List α)

/-- Capability flags of a domain (`type Service struct`). -/
structure Service where
  Registrar : Bool
  DNS : Bool
  Email : Bool
  Webhotel : String
deriving DecidableEq, Repr

/-- A registered domain (`type Domain struct`). -/
structure Domain where
  ID : Int
  Domain : String
  Status : String
  ExpiryDate : String
  RegisteredDate : String
  Renew : Bool
  Registrant : String
  Nameservers : Slice String
  Services : Service
deriving DecidableEq, Repr

/-- One entry of a zone (`type DNSRecord struct`).  The Go field `Type` is
spelled `Type_`, since `Type` is a reserved word. -/
structure DNSRecord where
  ID : Int
  Host : String
  TTL : Int
  Type_ : String
  Data : String
  Priority : String
  Weight : String
  Port : String
deriving DecidableEq, Repr

/-! ## Record validator (domeneshop.go, lines 209-238) -/

/-- Validate a DNSRecord before sending it: the three guards on `Host`,
`Type`, `Data`, then the `switch` on `Type` with the cases `"MX"` and `"SRV"`
and no default case. -/
def validateDNSRecord (record : DNSRecord) : Bool :=
  if record.Host = "" then false
  else if record.Type_ = "" then false
  else if record.Data = "" then false
  else
    if record.Type_ = "MX" then
      if record.Priority = "" then false else true
    else if record.Type_ = "SRV" then
      if record.Priority = "" then false
      else if record.Weight = "" then false
      else if record.Port = "" then false
      else true
    else true

/-! ## Formatting and encoding helpers

`fmt.Sprintf` with the verb `%v` prints a string as itself and an `int` in
decimal; `base64.StdEncoding` is the RFC 4648 alphabet with `=` padding. -/

/-- Decimal text of a Go `int`, as the verb `%v` prints it. -/
def fmtInt (i : Int) : String :=
  match i with
  | Int.ofNat n => Nat.repr n
  | Int.negSucc n => "-" ++ Nat.repr (n + 1)

/-- UTF-8 bytes of one character (bytes are naturals below 256). -/
def utf8Bytes (c : Char) : List Nat :=
  let n := c.toNat
  if n < 128 then [n]
  else if n < 2048 then [192 + n / 64, 128 + n % 64]
  else if n < 65536 then [224 + n / 4096, 128 + n / 64 % 64, 128 + n % 64]
  else [240 + n / 262144, 128 + n / 4096 % 64, 128 + n / 64 % 64, 128 + n % 64]

/-- The conversion `[]byte(s)`. -/
def bytesOf (s : String) : List Nat :=
  s.toList.flatMap utf8Bytes

/-- The alphabet of `base64.StdEncoding`. -/
def encodeStd : List Char :=
  "ABCDEFGHIJKLMNOPQRSTUVWXYZabcdefghijklmnopqrstuvwxyz0123456789+/".toList

/-- The character for a six-bit value. -/
def b64Char (n : Nat) : Char :=
  encodeStd.getD n '='

/-- Base64 of a byte sequence, three bytes to four characters, padded. -/
def b64Encode : List Nat → List Char
  | [] => []
  | [a] => [b64Char (a / 4), b64Char (a % 4 * 16), '=', '=']
  | [a, b] => [b64Char (a / 4), b64Char (a % 4 * 16 + b / 16), b64Char (b % 16 * 4), '=']
  | a :: b :: c :: rest =>
    b64Char (a / 4) :: b64Char (a % 4 * 16 + b / 16) :: b64Char (b % 16 * 4 + c / 64)
      :: b64Char (c % 64) :: b64Encode rest

/-- The call `base64.StdEncoding.EncodeToString`. -/
def EncodeToString (bs : List Nat) : String :=
  String.mk (b64Encode bs)

/-- Helper `basicAuth` (domeneshop.go, lines 204-207). -/
def basicAuth (username password : String) : String :=
  let auth := username ++ ":" ++ password
  EncodeToString (bytesOf auth)

/-! ## Client construction (domeneshop.go, lines 56-75) -/

/-- Modelled from the spec: the type `myhttp` is not declared in
domeneshop.go; its two fields are the ones `New` fills in.  `C` stands for
`http.Client`, and `client` is the pointer `*http.Client` (`none` is `nil`). -/
structure myhttp (C : Type) where
  client : Option C
  auth : String

/-- The client object (`type Domeneshop struct`); its `client` is the
`myhttp` value allocated by `New`. -/
structure Domeneshop (C : Type) where
  client : myhttp C

/-- New domeneshop client.  The named results are `api` (a pointer, `some`
when non-nil) and `err`. -/
def New {C : Type} (clientid : String) (clientsecret : String) (client : Option C) :
    Option (Domeneshop C) × GoError :=
  -- if client != nil { err = fmt.Errorf("") }
  let err : GoError := if client.isSome then some "" else none
  let apiclient : myhttp C := { client := client, auth := basicAuth clientid clientsecret }
  let api : Domeneshop C := { client := apiclient }
  (some api, err)

/-! ## Transport, responses and the world -/

/-- Outcome of running a function body: it returns a value or panics
(a nil dereference). -/
inductive Outcome (α : Type) where
  | ret : α → Outcome α
  | panic : Outcome α
deriving DecidableEq, Repr

/-- The four methods of `myhttp` that the operations call. -/
inductive Method where
  | GET
  | POST
  | PUT
  | DELETE
deriving DecidableEq, Repr

/-- One call to the transport: the method, the path and the record passed
along (`POST` and `PUT` only). -/
structure Request where
  method : Method
  path : String
  payload : Option DNSRecord
deriving DecidableEq, Repr

/-- A response body (`io.ReadCloser`): what `ioutil.ReadAll` yields for it,
the bytes and the read error. -/
structure Body where
  data : String
  readErr : GoError
deriving DecidableEq, Repr

/-- The fields of `http.Response` that the operations use; `Body` is an
interface value and may be `nil`. -/
structure Response where
  StatusCode : Int
  Body : Option Body
deriving DecidableEq, Repr

/-- What a transport method returns: `(resp, err)`. -/
structure Reply where
  resp : Option Response
  err : GoError
deriving DecidableEq, Repr

/-- Modelled from the spec: the methods `GET`, `POST`, `PUT` and `DELETE` of
`myhttp` are not defined in domeneshop.go.  Their behaviour is a parameter: a
function from the receiver and the request to the pair `(resp, err)` the
method returns. -/
abbrev Transport (C : Type) := myhttp C → Request → Reply

/-- A JSON decoder for a slice of `α` (`json.Unmarshal` into a slice): the
decoded slice or the decode error.  The decoder belongs to the Go standard
library and is a parameter. -/
abbrev Unmarshal (α : Type) := String → Except String (Slice α)

/-- The observable world: the log of transport calls, whether `Close` has
run on the body of the latest response, and the lines printed. -/
structure World where
  calls : List Request
  closed : Bool
  stdout : List String
deriving DecidableEq, Repr

/-- A world in which nothing has happened yet. -/
def World.init : World := { calls := [], closed := false, stdout := [] }

/-- The call `resp.Body.Close()`. -/
def World.close (w : World) : World := { w with closed := true }

/-- The call `fmt.Println(err)`. -/
def World.println (w : World) (line : String) : World :=
  { w with stdout := w.stdout ++ [line ++ "\n"] }

/-- Invoke a transport method: the call is logged, the reply carries a body
that is not closed yet. -/
def send {C : Type} (t : Transport C) (c : myhttp C) (req : Request) (w : World) :
    Reply × World :=
  (t c req, { w with calls := w.calls ++ [req], closed := false })

/-! ## The five operations (domeneshop.go, lines 77-200) -/

/-- Operation `GetDomains`. -/
def GetDomains {C : Type} (t : Transport C) (unmarshal : Unmarshal Domain)
    (a : Domeneshop C) (filter : String) (w : World) :
    Outcome (Slice Domain × GoError) × World :=
  let url := "/domains"
  let url := if filter ≠ "" then url ++ "?domain=" ++ filter else url
  let (reply, w) := send t a.client ⟨Method.GET, url, none⟩ w
  -- if err != nil { fmt.Println(err) }: the error is printed, nothing returns
  let w := match reply.err with
    | some e => w.println e
    | none => w
  match reply.resp with
  | none => (Outcome.panic, w) -- resp.StatusCode on a nil pointer
  | some resp =>
    if resp.StatusCode ≠ 200 then
      (Outcome.ret (none, some ("http error: " ++ fmtInt resp.StatusCode)), w)
    else
      match resp.Body with
      | none => (Outcome.panic, w) -- resp.Body.Close on a nil interface
      | some body =>
        -- defer resp.Body.Close(): runs when the function returns
        let out : Outcome (Slice Domain × GoError) :=
          match body.readErr with
          | some e => Outcome.ret (none, some e)
          | none =>
            match unmarshal body.data with
            | Except.error e => Outcome.ret (none, some e)
            | Except.ok domains => Outcome.ret (domains, none)
        (out, w.close)

/-- Operation `ListDNSRecords`. -/
def ListDNSRecords {C : Type} (t : Transport C) (unmarshal : Unmarshal DNSRecord)
    (a : Domeneshop C) (domainid : Int) (host : String) (dnstype : String) (w : World) :
    Outcome (Slice DNSRecord × GoError) × World :=
  let path := "/domains/" ++ fmtInt domainid ++ "/dns"
  let path :=
    if dnstype ≠ "" ∧ host ≠ "" then path ++ "?host=" ++ host ++ "&type=" ++ dnstype
    else if host ≠ "" then path ++ "?host=" ++ host
    else if dnstype ≠ "" then path ++ "?type=" ++ dnstype
    else path
  let (reply, w) := send t a.client ⟨Method.GET, path, none⟩ w
  match reply.err with
  | some e => (Outcome.ret (none, some e), w)
  | none =>
    match reply.resp with
    | none => (Outcome.panic, w) -- resp.StatusCode on a nil pointer
    | some resp =>
      if resp.StatusCode ≠ 200 then
        (Outcome.ret (none, some ("http error: " ++ fmtInt resp.StatusCode)), w)
      else
        match resp.Body with
        | none => (Outcome.panic, w) -- ioutil.ReadAll on a nil reader
        | some body =>
          -- if resp.Body != nil { defer resp.Body.Close() }
          let out : Outcome (Slice DNSRecord × GoError) :=
            match body.readErr with
            | some e => Outcome.ret (none, some e)
            | none =>
              match unmarshal body.data with
              | Except.error e => Outcome.ret (none, some e)
              | Except.ok records => Outcome.ret (records, none)
          (out, w.close)

/-- Operation `AddDNSRecord`. -/
def AddDNSRecord {C : Type} (t : Transport C) (a : Domeneshop C) (domainid : Int)
    (value : DNSRecord) (w : World) : Outcome GoError × World :=
  if ¬ validateDNSRecord value then
    (Outcome.ret (some ErrMissingRequiredField), w)
  else
    let path := "/domains/" ++ fmtInt domainid ++ "/dns"
    let (reply, w) := send t a.client ⟨Method.POST, path, some value⟩ w
    match reply.err with
    | some e => (Outcome.ret (some e), w)
    | none =>
      match reply.resp with
      | none => (Outcome.panic, w) -- resp.Body on a nil pointer
      | some resp =>
        -- if resp.Body != nil { defer resp.Body.Close() }
        let w := match resp.Body with
          | some _ => w.close
          | none => w
        if resp.StatusCode ≠ 201 then
          (Outcome.ret (some ("http error: " ++ fmtInt resp.StatusCode)), w)
        else
          (Outcome.ret none, w)

/-- Operation `UpdateDNSRecord`. -/
def UpdateDNSRecord {C : Type} (t : Transport C) (a : Domeneshop C) (domainid : Int)
    (dnsrecordid : Int) (value : DNSRecord) (w : World) : Outcome GoError × World :=
  let url := "/domains/" ++ fmtInt domainid ++ "/dns/" ++ fmtInt dnsrecordid
  let (reply, w) := send t a.client ⟨Method.PUT, url, some value⟩ w
  match reply.err with
  | some e => (Outcome.ret (some e), w)
  | none =>
    match reply.resp with
    | none => (Outcome.panic, w) -- resp.Body on a nil pointer
    | some resp =>
      match resp.Body with
      | none => (Outcome.panic, w) -- resp.Body.Close on a nil interface
      | some _ =>
        -- defer resp.Body.Close(): runs when the function returns
        let out : Outcome GoError :=
          if resp.StatusCode ≠ 204 then
            Outcome.ret (some ("http error: " ++ fmtInt resp.StatusCode))
          else
            Outcome.ret none
        (out, w.close)

/-- Operation `DeleteDNSRecord`. -/
def DeleteDNSRecord {C : Type} (t : Transport C) (a : Domeneshop C) (domainid : Int)
    (dnsrecordid : Int) (w : World) : Outcome GoError × World :=
  let url := "/domains/" ++ fmtInt domainid ++ "/dns/" ++ fmtInt dnsrecordid
  let (reply, w) := send t a.client ⟨Method.DELETE, url, none⟩ w
  match reply.err with
  | some e => (Outcome.ret (some e), w)
  | none =>
    match reply.resp with
    | none => (Outcome.panic, w) -- resp.StatusCode on a nil pointer
    | some resp =>
      if resp.StatusCode ≠ 204 then
        (Outcome.ret (some ("http error: " ++ fmtInt resp.StatusCode)), w)
      else
        (Outcome.ret none, w)

/-! ## Documented endpoints

The endpoints as the interface description lists them:
`GET /domains[?domain=X]`, `GET /domains/{id}/dns[?host=H][&type=T]`,
`POST /domains/{id}/dns`, `PUT` and `DELETE /domains/{id}/dns/{recordId}`.
These follow the description, not the code; the operations are compared
with them below. -/

/-- Documented path of the domain list: `/domains`, with `?domain=X` when a
filter is given. -/
def endpointDomains (filter : String) : String :=
  if filter = "" then "/domains" else "/domains?domain=" ++ filter

/-- Documented query of the record list: nothing when both filters are
empty, `?host=H` when only the host is set, `?type=T` when only the type is
set, `?host=H&type=T` when both are set. -/
def endpointQuery (host dnstype : String) : String :=
  if host = "" ∧ dnstype = "" then ""
  else if dnstype = "" then "?host=" ++ host
  else if host = "" then "?type=" ++ dnstype
  else "?host=" ++ host ++ "&type=" ++ dnstype

/-- Documented path of a zone: `/domains/{id}/dns`. -/
def endpointDNS (domainid : Int) : String :=
  "/domains/" ++ fmtInt domainid ++ "/dns"

/-- Documented path of one record: `/domains/{id}/dns/{recordId}`. -/
def endpointRecord (domainid dnsrecordid : Int) : String :=
  "/domains/" ++ fmtInt domainid ++ "/dns/" ++ fmtInt dnsrecordid

/-- The request `GetDomains` is documented to issue. -/
def reqGetDomains (filter : String) : Request :=
  ⟨Method.GET, endpointDomains filter, none⟩

/-- The request `ListDNSRecords` is documented to issue. -/
def reqListDNSRecords (domainid : Int) (host dnstype : String) : Request :=
  ⟨Method.GET, endpointDNS domainid ++ endpointQuery host dnstype, none⟩

/-- The request `AddDNSRecord` is documented to issue. -/
def reqAddDNSRecord (domainid : Int) (value : DNSRecord) : Request :=
  ⟨Method.POST, endpointDNS domainid, some value⟩

/-- The request `UpdateDNSRecord` is documented to issue. -/
def reqUpdateDNSRecord (domainid dnsrecordid : Int) (value : DNSRecord) : Request :=
  ⟨Method.PUT, endpointRecord domainid dnsrecordid, some value⟩

/-- The request `DeleteDNSRecord` is documented to issue. -/
def reqDeleteDNSRecord (domainid dnsrecordid : Int) : Request :=
  ⟨Method.DELETE, endpointRecord domainid dnsrecordid, none⟩

/-! ## JSON text: reading (the grammar `encoding/json` accepts)

`json.Unmarshal` belongs to the Go standard library.  It first checks that
the whole body is one JSON value with nothing but white space around it, then
stores the value.  A body is a `String` here, so the bodies covered are those
that are valid UTF-8. -/

/-- The double quote. -/
def quoteChar : Char := Char.ofNat 34

/-- The backslash. -/
def backslash : Char := Char.ofNat 92

/-- The opening brace. -/
def openBrace : Char := Char.ofNat 123

/-- The closing brace. -/
def closeBrace : Char := Char.ofNat 125

/-- The replacement character U+FFFD. -/
def replacement : Char := Char.ofNat 65533

/-- Nesting limit of the JSON scanner (`maxNestingDepth`). -/
def maxNestingDepth : Nat := 10000

/-- A parsed JSON value.  A number keeps its literal text. -/
inductive JSON where
  | null : JSON
  | bool : Bool → JSON
  | num : List Char → JSON
  | str : String → JSON
  | arr : List JSON → JSON
  | obj : List (String × JSON) → JSON

/-- White space between JSON tokens: space, tab, carriage return, line feed. -/
def isSpace (c : Char) : Bool :=
  decide (c.toNat = 32) || decide (c.toNat = 9) || decide (c.toNat = 13) || decide (c.toNat = 10)

/-- Drop leading white space. -/
def skipSpace : List Char → List Char
  | [] => []
  | c :: cs => if isSpace c then skipSpace cs else c :: cs

/-- A decimal digit. -/
def isDigit (c : Char) : Bool := decide (48 ≤ c.toNat) && decide (c.toNat ≤ 57)

/-- Value of a hexadecimal digit, either case. -/
def hexVal (c : Char) : Option Nat :=
  let n := c.toNat
  if 48 ≤ n ∧ n ≤ 57 then some (n - 48)
  else if 97 ≤ n ∧ n ≤ 102 then some (n - 87)
  else if 65 ≤ n ∧ n ≤ 70 then some (n - 55)
  else none

/-- Value of four hexadecimal digits. -/
def hex4 (a b c d : Char) : Option Nat :=
  match hexVal a, hexVal b, hexVal c, hexVal d with
  | some x, some y, some z, some w => some (x * 4096 + y * 256 + z * 16 + w)
  | _, _, _, _ => none

/-- The character a one-letter escape stands for. -/
def unescape (e : Char) : Option Char :=
  if e = quoteChar then some quoteChar
  else if e = backslash then some backslash
  else if e = '/' then some '/'
  else if e = 'b' then some (Char.ofNat 8)
  else if e = 'f' then some (Char.ofNat 12)
  else if e = 'n' then some (Char.ofNat 10)
  else if e = 'r' then some (Char.ofNat 13)
  else if e = 't' then some (Char.ofNat 9)
  else none

/-- Read a string literal after its opening quote, up to and including the
closing quote: the code units it denotes and the rest of the input.  A
`\uXXXX` escape yields its sixteen-bit value. -/
def parseStringBody : List Char → Option (List Nat × List Char)
  | [] => none
  | c :: cs =>
    if c = quoteChar then some ([], cs)
    else if c = backslash then
      match cs with
      | [] => none
      | e :: cs1 =>
        if e = 'u' then
          match cs1 with
          | h1 :: h2 :: h3 :: h4 :: cs2 =>
            match hex4 h1 h2 h3 h4 with
            | none => none
            | some u => (parseStringBody cs2).map fun (us, r) => (u :: us, r)
          | _ => none
        else
          match unescape e with
          | some ch => (parseStringBody cs1).map fun (us, r) => (ch.toNat :: us, r)
          | none => none
    else if c.toNat < 32 then none
    else (parseStringBody cs).map fun (us, r) => (c.toNat :: us, r)

/-- A high (leading) surrogate. -/
def isHigh (u : Nat) : Bool := decide (55296 ≤ u) && decide (u < 56320)

/-- A low (trailing) surrogate. -/
def isLow (u : Nat) : Bool := decide (56320 ≤ u) && decide (u < 57344)

/-- The character of a code unit that is not a high surrogate; a lone low
surrogate becomes U+FFFD. -/
def runeOf (u : Nat) : Char := if isLow u then replacement else Char.ofNat u

/-- Turn code units into characters: an escaped high surrogate followed at
once by an escaped low surrogate is one character, any other surrogate is
U+FFFD.  The first argument is the high surrogate waiting for its partner. -/
def decodeUnits : Option Nat → List Nat → List Char
  | none, [] => []
  | some _, [] => [replacement]
  | none, u :: us =>
    if isHigh u then decodeUnits (some u) us else runeOf u :: decodeUnits none us
  | some hi, u :: us =>
    if isLow u then
      Char.ofNat ((hi - 55296) * 1024 + (u - 56320) + 65536) :: decodeUnits none us
    else if isHigh u then replacement :: decodeUnits (some u) us
    else replacement :: runeOf u :: decodeUnits none us

/-- Read a string literal after its opening quote. -/
def parseString (cs : List Char) : Option (String × List Char) :=
  (parseStringBody cs).map fun (us, r) => (String.mk (decodeUnits none us), r)

/-- The longest run of digits at the front, and the rest. -/
def spanDigits : List Char → List Char × List Char
  | [] => ([], [])
  | c :: cs =>
    if isDigit c then (c :: (spanDigits cs).1, (spanDigits cs).2) else ([], c :: cs)

/-- Integer part of a number: `0`, or a non-zero digit and more digits. -/
def parseIntPart : List Char → Option (List Char × List Char)
  | [] => none
  | d :: r =>
    if d = '0' then some ([d], r)
    else if isDigit d then some (d :: (spanDigits r).1, (spanDigits r).2)
    else none

/-- Optional fraction: a point and at least one digit. -/
def parseFrac : List Char → Option (List Char × List Char)
  | [] => some ([], [])
  | p :: r =>
    if p = '.' then
      match spanDigits r with
      | ([], _) => none
      | (d :: ds, r1) => some (p :: d :: ds, r1)
    else some ([], p :: r)

/-- Optional sign of an exponent. -/
def parseSign : List Char → List Char × List Char
  | [] => ([], [])
  | s :: r => if s = '+' ∨ s = '-' then ([s], r) else ([], s :: r)

/-- Optional exponent: `e` or `E`, an optional sign, at least one digit. -/
def parseExp : List Char → Option (List Char × List Char)
  | [] => some ([], [])
  | e :: r =>
    if e = 'e' ∨ e = 'E' then
      match spanDigits (parseSign r).2 with
      | ([], _) => none
      | (d :: ds, r1) => some (e :: (parseSign r).1 ++ d :: ds, r1)
    else some ([], e :: r)

/-- Read a number literal: its text and the rest of the input. -/
def parseNumber (cs : List Char) : Option (List Char × List Char) :=
  let signed : List Char × List Char :=
    match cs with
    | [] => ([], [])
    | c :: r => if c = '-' then ([c], r) else ([], c :: r)
  match parseIntPart signed.2 with
  | none => none
  | some (ip, r1) =>
    match parseFrac r1 with
    | none => none
    | some (fp, r2) =>
      match parseExp r2 with
      | none => none
      | some (ep, r3) => some (signed.1 ++ ip ++ fp ++ ep, r3)

/-- Consume the given characters from the front of the input. -/
def expectChars : List Char → List Char → Option (List Char)
  | [], cs => some cs
  | _ :: _, [] => none
  | e :: es, c :: cs => if c = e then expectChars es cs else none

/-- Read a value that is not an array or an object; the input starts at the
value: a string, one of the literals `true`, `false`, `null`, or a number. -/
def parseScalar : List Char → Option (JSON × List Char)
  | [] => none
  | c :: r =>
    if c = quoteChar then (parseString r).map fun (s, r1) => (JSON.str s, r1)
    else if c = 't' then (expectChars ['r', 'u', 'e'] r).map fun r1 => (JSON.bool true, r1)
    else if c = 'f' then
      (expectChars ['a', 'l', 's', 'e'] r).map fun r1 => (JSON.bool false, r1)
    else if c = 'n' then (expectChars ['u', 'l', 'l'] r).map fun r1 => (JSON.null, r1)
    else (parseNumber (c :: r)).map fun (t, r1) => (JSON.num t, r1)

/-- Read the elements of an array after the first one has been found to be
there, up to and including the closing bracket.  `p` reads one value. -/
def parseElems (p : List Char → Option (JSON × List Char)) :
    Nat → List Char → Option (List JSON × List Char)
  | 0, _ => none
  | fuel + 1, cs =>
    match p cs with
    | none => none
    | some (v, r) =>
      match skipSpace r with
      | [] => none
      | d :: r1 =>
        if d = ',' then (parseElems p fuel r1).map fun (vs, r2) => (v :: vs, r2)
        else if d = ']' then some ([v], r1)
        else none

/-- Read the members of an object, the first key included, up to and
including the closing brace.  `p` reads one value. -/
def parseMembers (p : List Char → Option (JSON × List Char)) :
    Nat → List Char → Option (List (String × JSON) × List Char)
  | 0, _ => none
  | fuel + 1, cs =>
    match skipSpace cs with
    | [] => none
    | q :: r =>
      if q = quoteChar then
        match parseString r with
        | none => none
        | some (k, r1) =>
          match skipSpace r1 with
          | [] => none
          | c :: r2 =>
            if c = ':' then
              match p r2 with
              | none => none
              | some (v, r3) =>
                match skipSpace r3 with
                | [] => none
                | d :: r4 =>
                  if d = ',' then
                    (parseMembers p fuel r4).map fun (kvs, r5) => ((k, v) :: kvs, r5)
                  else if d = closeBrace then some ([(k, v)], r4)
                  else none
            else none
      else none

/-- Read one value, white space before it skipped.  `depth` is the number of
array and object levels that may still be opened. -/
def parseValue : Nat → List Char → Option (JSON × List Char)
  | depth, cs =>
    match skipSpace cs with
    | [] => none
    | c :: r =>
      if c = '[' then
        match depth with
        | 0 => none
        | d + 1 =>
          match skipSpace r with
          | [] => none
          | e :: r1 =>
            if e = ']' then some (JSON.arr [], r1)
            else (parseElems (fun x => parseValue d x) (e :: r1).length (e :: r1)).map
              fun (vs, r2) => (JSON.arr vs, r2)
      else if c = openBrace then
        match depth with
        | 0 => none
        | d + 1 =>
          match skipSpace r with
          | [] => none
          | e :: r1 =>
            if e = closeBrace then some (JSON.obj [], r1)
            else (parseMembers (fun x => parseValue d x) (e :: r1).length (e :: r1)).map
              fun (kvs, r2) => (JSON.obj kvs, r2)
      else parseScalar (c :: r)

/-- Read a whole document: one value, white space around it, nothing else. -/
def parseJSON (body : String) : Option JSON :=
  match parseValue maxNestingDepth body.toList with
  | none => none
  | some (v, r) => if skipSpace r = [] then some v else none

/-! ## JSON values: storing into Go values (`json.Unmarshal`)

`json.Unmarshal` stores into the value it is given: `null` leaves a string,
a number, a boolean and a struct as they are and makes a slice `nil`; a value
of the wrong kind is an error; an object key selects the field whose tag it
equals, or else equals when letter case is ignored; other keys are skipped; a
key that comes twice stores twice. -/

/-- Case folding of one character of a key, as far as it decides equality
with a tag made of ASCII letters: lower case to upper case, and the two
non-ASCII characters that fold to a letter, U+017F to `S` and U+212A to `K`. -/
def foldRune (c : Char) : Char :=
  if 97 ≤ c.toNat ∧ c.toNat ≤ 122 then Char.ofNat (c.toNat - 32)
  else if c.toNat = 383 then 'S'
  else if c.toNat = 8490 then 'K'
  else c

/-- Case folding of a name. -/
def foldName (s : String) : List Char := s.toList.map foldRune

/-- The field an object key selects among the given tags: the tag equal to
the key, or else the first tag equal to it after folding. -/
def findField (tags : List String) (key : String) : Option String :=
  match tags.find? (fun tag => decide (tag = key)) with
  | some tag => some tag
  | none => tags.find? (fun tag => decide (foldName tag = foldName key))

/-- Value of a run of decimal digits. -/
def ofDigits (ds : List Char) : Nat :=
  ds.foldl (fun acc c => acc * 10 + (c.toNat - 48)) 0

/-- The call `strconv.ParseInt(text, 10, 64)` on the text of a JSON number:
an optional minus sign and digits, within the range of `int64`. -/
def parseInt64 (text : List Char) : Option Int :=
  match text with
  | [] => none
  | c :: ds =>
    if c = '-' then
      if ds.all isDigit ∧ ds ≠ [] ∧ ofDigits ds ≤ 9223372036854775808 then
        some (-(ofDigits ds : Int))
      else none
    else
      if (c :: ds).all isDigit ∧ ofDigits (c :: ds) < 9223372036854775808 then
        some (ofDigits (c :: ds) : Int)
      else none

/-- Store into an `int`. -/
def storeInt (old : Int) : JSON → Option Int
  | JSON.null => some old
  | JSON.num text => parseInt64 text
  | _ => none

/-- Store into a `string`. -/
def storeString (old : String) : JSON → Option String
  | JSON.null => some old
  | JSON.str s => some s
  | _ => none

/-- Store into a `bool`. -/
def storeBool (old : Bool) : JSON → Option Bool
  | JSON.null => some old
  | JSON.bool b => some b
  | _ => none

/-- Store the elements of an array into the elements of a `[]string`, one by
one.  `backing` holds what the elements held before: the old elements, then
what lies behind them in the backing array, then empty strings. -/
def storeElems : List String → List JSON → Option (List String)
  | _, [] => some []
  | backing, x :: xs =>
    match storeString (backing.headD "") x with
    | none => none
    | some s => (storeElems backing.tail xs).map fun ss => s :: ss

/-- Store into a `[]string`.  Beside the slice the backing array is kept:
`spare` is what lies behind the slice's last element.  `null` makes the slice
`nil`; an empty array makes a fresh empty slice; an array stores element by
element and sets the length. -/
def storeStrings (old : Slice String) (spare : List String) :
    JSON → Option (Slice String × List String)
  | JSON.null => some (none, [])
  | JSON.arr [] => some (some [], [])
  | JSON.arr (x :: xs) =>
    (storeElems (old.getD [] ++ spare) (x :: xs)).map fun ss =>
      (some ss, (old.getD [] ++ spare).drop (x :: xs).length)
  | _ => none

/-- The tags of `Service`, in field order. -/
def serviceTags : List String := ["registrar", "dns", "email", "webhotel"]

/-- Store one object member into a `Service`. -/
def storeServiceField (old : Service) (key : String) (v : JSON) : Option Service :=
  match findField serviceTags key with
  | none => some old
  | some tag =>
    if tag = "registrar" then (storeBool old.Registrar v).map fun b => { old with Registrar := b }
    else if tag = "dns" then (storeBool old.DNS v).map fun b => { old with DNS := b }
    else if tag = "email" then (storeBool old.Email v).map fun b => { old with Email := b }
    else (storeString old.Webhotel v).map fun s => { old with Webhotel := s }

/-- Store the members of an object into a `Service`, in order. -/
def storeServiceFields : Service → List (String × JSON) → Option Service
  | old, [] => some old
  | old, (k, v) :: kvs =>
    match storeServiceField old k v with
    | none => none
    | some s => storeServiceFields s kvs

/-- Store into a `Service`. -/
def storeService (old : Service) : JSON → Option Service
  | JSON.null => some old
  | JSON.obj kvs => storeServiceFields old kvs
  | _ => none

/-- A `Domain` being stored into, with the backing array of its
`Nameservers` behind the slice. -/
structure DomainCell where
  value : Domain
  spare : List String

/-- The zero `Domain`. -/
def zeroDomain : Domain :=
  { ID := 0, Domain := "", Status := "", ExpiryDate := "", RegisteredDate := "",
    Renew := false, Registrant := "", Nameservers := none,
    Services := { Registrar := false, DNS := false, Email := false, Webhotel := "" } }

/-- The tags of `Domain`, in field order. -/
def domainTags : List String :=
  ["id", "domain", "status", "expiry_date", "registered_date", "renew", "registrant",
    "nameservers", "services"]

/-- Store one object member into a `Domain`. -/
def storeDomainField (old : DomainCell) (key : String) (v : JSON) : Option DomainCell :=
  match findField domainTags key with
  | none => some old
  | some tag =>
    if tag = "id" then
      (storeInt old.value.ID v).map fun i => { old with value := { old.value with ID := i } }
    else if tag = "domain" then
      (storeString old.value.Domain v).map fun s =>
        { old with value := { old.value with Domain := s } }
    else if tag = "status" then
      (storeString old.value.Status v).map fun s =>
        { old with value := { old.value with Status := s } }
    else if tag = "expiry_date" then
      (storeString old.value.ExpiryDate v).map fun s =>
        { old with value := { old.value with ExpiryDate := s } }
    else if tag = "registered_date" then
      (storeString old.value.RegisteredDate v).map fun s =>
        { old with value := { old.value with RegisteredDate := s } }
    else if tag = "renew" then
      (storeBool old.value.Renew v).map fun b =>
        { old with value := { old.value with Renew := b } }
    else if tag = "registrant" then
      (storeString old.value.Registrant v).map fun s =>
        { old with value := { old.value with Registrant := s } }
    else if tag = "nameservers" then
      (storeStrings old.value.Nameservers old.spare v).map fun (ns, spare) =>
        { value := { old.value with Nameservers := ns }, spare := spare }
    else
      (storeService old.value.Services v).map fun s =>
        { old with value := { old.value with Services := s } }

/-- Store the members of an object into a `Domain`, in order. -/
def storeDomainFields : DomainCell → List (String × JSON) → Option DomainCell
  | old, [] => some old
  | old, (k, v) :: kvs =>
    match storeDomainField old k v with
    | none => none
    | some cell => storeDomainFields cell kvs

/-- Store into a fresh element of a `[]Domain`. -/
def storeDomain : JSON → Option Domain
  | JSON.null => some zeroDomain
  | JSON.obj kvs => (storeDomainFields { value := zeroDomain, spare := [] } kvs).map (·.value)
  | _ => none

/-- Store the elements of an array into fresh elements of a `[]Domain`. -/
def storeDomainElems : List JSON → Option (List Domain)
  | [] => some []
  | x :: xs =>
    match storeDomain x with
    | none => none
    | some d => (storeDomainElems xs).map fun ds => d :: ds

/-- Store into the empty `[]Domain` that `GetDomains` hands to the decoder. -/
def storeDomains : JSON → Option (Slice Domain)
  | JSON.null => some none
  | JSON.arr xs => (storeDomainElems xs).map some
  | _ => none

/-- The slice `json.Unmarshal(body, &domains)` leaves in `domains`, or `none`
when it returns an error. -/
def decodeDomains (body : String) : Option (Slice Domain) :=
  match parseJSON body with
  | none => none
  | some v => storeDomains v

/-- The call `json.Unmarshal(body, &domains)`.  The text of the error is made
by the library and is a parameter: `errText body` is the message for a body
that does not decode. -/
def jsonUnmarshalDomains (errText : String → String) : Unmarshal Domain := fun body =>
  match decodeDomains body with
  | some ds => Except.ok ds
  | none => Except.error (errText body)

/-- The zero `DNSRecord`. -/
def zeroRecord : DNSRecord :=
  { ID := 0, Host := "", TTL := 0, Type_ := "", Data := "", Priority := "", Weight := "",
    Port := "" }

/-- The tags of `DNSRecord`, in field order. -/
def recordTags : List String :=
  ["id", "host", "ttl", "type", "data", "priority", "weight", "port"]

/-- Store one object member into a `DNSRecord`. -/
def storeRecordField (old : DNSRecord) (key : String) (v : JSON) : Option DNSRecord :=
  match findField recordTags key with
  | none => some old
  | some tag =>
    if tag = "id" then (storeInt old.ID v).map fun i => { old with ID := i }
    else if tag = "host" then (storeString old.Host v).map fun s => { old with Host := s }
    else if tag = "ttl" then (storeInt old.TTL v).map fun i => { old with TTL := i }
    else if tag = "type" then (storeString old.Type_ v).map fun s => { old with Type_ := s }
    else if tag = "data" then (storeString old.Data v).map fun s => { old with Data := s }
    else if tag = "priority" then
      (storeString old.Priority v).map fun s => { old with Priority := s }
    else if tag = "weight" then (storeString old.Weight v).map fun s => { old with Weight := s }
    else (storeString old.Port v).map fun s => { old with Port := s }

/-- Store the members of an object into a `DNSRecord`, in order. -/
def storeRecordFields : DNSRecord → List (String × JSON) → Option DNSRecord
  | old, [] => some old
  | old, (k, v) :: kvs =>
    match storeRecordField old k v with
    | none => none
    | some r => storeRecordFields r kvs

/-- Store into a fresh element of a `[]DNSRecord`. -/
def storeRecord : JSON → Option DNSRecord
  | JSON.null => some zeroRecord
  | JSON.obj kvs => storeRecordFields zeroRecord kvs
  | _ => none

/-- Store the elements of an array into fresh elements of a `[]DNSRecord`. -/
def storeRecordElems : List JSON → Option (List DNSRecord)
  | [] => some []
  | x :: xs =>
    match storeRecord x with
    | none => none
    | some r => (storeRecordElems xs).map fun rs => r :: rs

/-- Store into the empty `[]DNSRecord` that `ListDNSRecords` hands to the
decoder. -/
def storeRecords : JSON → Option (Slice DNSRecord)
  | JSON.null => some none
  | JSON.arr xs => (storeRecordElems xs).map some
  | _ => none

/-- The slice `json.Unmarshal(body, &records)` leaves in `records`, or `none`
when it returns an error. -/
def decodeRecords (body : String) : Option (Slice DNSRecord) :=
  match parseJSON body with
  | none => none
  | some v => storeRecords v

/-- The call `json.Unmarshal(body, &records)`, with the error text a
parameter as for domains. -/
def jsonUnmarshalRecords (errText : String → String) : Unmarshal DNSRecord := fun body =>
  match decodeRecords body with
  | some rs => Except.ok rs
  | none => Except.error (errText body)

/-! ## JSON text: writing (`json.Marshal`)

The compact text `json.Marshal` writes: no white space, the fields of a struct
under their tags in field order, a nil slice as `null`.  Backspace and form
feed are written with their letters, as Go 1.22 and later do; earlier versions
wrote them with `u0008` and `u000c`, which read back the same. -/

/-- Lower-case hexadecimal digit. -/
def hexDigit (n : Nat) : Char :=
  "0123456789abcdef".toList.getD n '0'

/-- One character inside a string literal: the quote and the backslash are
escaped with a backslash; line feed, carriage return, tab, backspace and form
feed have their letters; other control characters and `<`, `>`, `&` are
written with `u00` and two hexadecimal digits; U+2028 and U+2029 are written
with `u202` and one digit; every other character stands for itself. -/
def escapeChar (c : Char) : List Char :=
  if c = quoteChar then [backslash, quoteChar]
  else if c = backslash then [backslash, backslash]
  else if c.toNat = 10 then [backslash, 'n']
  else if c.toNat = 13 then [backslash, 'r']
  else if c.toNat = 9 then [backslash, 't']
  else if c.toNat = 8 then [backslash, 'b']
  else if c.toNat = 12 then [backslash, 'f']
  else if c.toNat < 32 ∨ c = '<' ∨ c = '>' ∨ c = '&' then
    [backslash, 'u', '0', '0', hexDigit (c.toNat / 16), hexDigit (c.toNat % 16)]
  else if c.toNat = 8232 ∨ c.toNat = 8233 then
    [backslash, 'u', '2', '0', '2', hexDigit (c.toNat % 16)]
  else [c]

/-- A string literal. -/
def encodeString (s : String) : List Char :=
  quoteChar :: (s.toList.flatMap escapeChar ++ [quoteChar])

/-- A boolean. -/
def encodeBool (b : Bool) : List Char :=
  if b then ['t', 'r', 'u', 'e'] else ['f', 'a', 'l', 's', 'e']

/-- An `int`, in decimal. -/
def encodeInt (i : Int) : List Char := (fmtInt i).toList

/-- The literal `null`. -/
def encodeNull : List Char := ['n', 'u', 'l', 'l']

/-- The given texts, each behind a comma. -/
def commaEach : List (List Char) → List Char
  | [] => []
  | x :: xs => ',' :: (x ++ commaEach xs)

/-- The given texts with commas between them. -/
def joinComma : List (List Char) → List Char
  | [] => []
  | x :: xs => x ++ commaEach xs

/-- An array of the given element texts. -/
def encodeArray (items : List (List Char)) : List Char :=
  '[' :: (joinComma items ++ [']'])

/-- An object member: the tag as a string literal, a colon, the value. -/
def encodeMember (tag : String) (value : List Char) : List Char :=
  encodeString tag ++ ':' :: value

/-- An object of the given member texts. -/
def encodeObject (members : List (List Char)) : List Char :=
  openBrace :: (joinComma members ++ [closeBrace])

/-- A `[]string`: `null` when `nil`, else the array of its elements. -/
def encodeStrings : Slice String → List Char
  | none => encodeNull
  | some xs => encodeArray (xs.map encodeString)

/-- A `Service`: its fields under their tags, in field order. -/
def encodeService (s : Service) : List Char :=
  encodeObject
    [encodeMember "registrar" (encodeBool s.Registrar),
     encodeMember "dns" (encodeBool s.DNS),
     encodeMember "email" (encodeBool s.Email),
     encodeMember "webhotel" (encodeString s.Webhotel)]

/-- A `Domain`: its fields under their tags, in field order. -/
def encodeDomain (d : Domain) : List Char :=
  encodeObject
    [encodeMember "id" (encodeInt d.ID),
     encodeMember "domain" (encodeString d.Domain),
     encodeMember "status" (encodeString d.Status),
     encodeMember "expiry_date" (encodeString d.ExpiryDate),
     encodeMember "registered_date" (encodeString d.RegisteredDate),
     encodeMember "renew" (encodeBool d.Renew),
     encodeMember "registrant" (encodeString d.Registrant),
     encodeMember "nameservers" (encodeStrings d.Nameservers),
     encodeMember "services" (encodeService d.Services)]

/-- A `[]Domain`: `null` when `nil`, else the array of its elements. -/
def encodeDomains : Slice Domain → List Char
  | none => encodeNull
  | some ds => encodeArray (ds.map encodeDomain)

/-- The JSON encoding of a slice of domains: the compact text `json.Marshal`
writes for it. -/
def marshalDomains (ds : Slice Domain) : String :=
  String.mk (encodeDomains ds)

/-- An `int` as Go holds it: within the range of `int64`. -/
def isInt64 (i : Int) : Prop :=
  -9223372036854775808 ≤ i ∧ i ≤ 9223372036854775807

/-! ## JSON values of the data shapes

The value trees that the encoder writes; they link the text to the stored
result in the proofs below. -/

/-- The input goes on with a comma, a closing bracket or a closing brace. -/
def Delim (rest : List Char) : Prop :=
  ∃ c r, rest = c :: r ∧ (c = ',' ∨ c = ']' ∨ c = closeBrace)

/-- A text that reads back as the value `v` when a delimiter follows, and that
starts with a character that is neither white space nor a closing bracket. -/
def Enc (p : List Char → Option (JSON × List Char)) (text : List Char) (v : JSON) : Prop :=
  (∃ c cs, text = c :: cs ∧ isSpace c = false ∧ c ≠ ']') ∧
  ∀ rest, Delim rest → p (text ++ rest) = some (v, rest)

/-- The JSON value of a `[]string`. -/
def stringsJSON : Slice String → JSON
  | none => JSON.null
  | some xs => JSON.arr (xs.map JSON.str)

/-- The JSON value of a `Service`. -/
def serviceJSON (s : Service) : JSON :=
  JSON.obj
    [("registrar", JSON.bool s.Registrar), ("dns", JSON.bool s.DNS),
     ("email", JSON.bool s.Email), ("webhotel", JSON.str s.Webhotel)]

/-- The JSON value of a `Domain`. -/
def domainJSON (d : Domain) : JSON :=
  JSON.obj
    [("id", JSON.num (encodeInt d.ID)), ("domain", JSON.str d.Domain),
     ("status", JSON.str d.Status), ("expiry_date", JSON.str d.ExpiryDate),
     ("registered_date", JSON.str d.RegisteredDate), ("renew", JSON.bool d.Renew),
     ("registrant", JSON.str d.Registrant), ("nameservers", stringsJSON d.Nameservers),
     ("services", serviceJSON d.Services)]

/-- The JSON value of a `[]Domain`. -/
def domainsJSON : Slice Domain → JSON
  | none => JSON.null
  | some ds => JSON.arr (ds.map domainJSON)


/-! ## Sample data used by the concrete checks -/

/-- A mail-exchanger record without a priority. -/
def recMXNoPriority : DNSRecord :=
  { ID := 0, Host := "@", TTL := 3600, Type_ := "MX", Data := "mail.example.com",
    Priority := "", Weight := "", Port := "" }

/-- A record whose type is the lower-case text `mx`. -/
def recLowerMX : DNSRecord :=
  { ID := 7, Host := "@", TTL := 0, Type_ := "mx", Data := "mail.example.com",
    Priority := "", Weight := "", Port := "" }

/-- A client object over a trivial `http.Client` stand-in. -/
def sampleApi : Domeneshop Unit :=
  { client := { client := some (), auth := basicAuth "id" "secret" } }

/-- A valid address record. -/
def recValid : DNSRecord :=
  { ID := 0, Host := "www", TTL := 3600, Type_ := "A", Data := "192.0.2.1",
    Priority := "", Weight := "", Port := "" }

/-- A response body holding the given text, readable without error. -/
def bodyOf (text : String) : Body := { data := text, readErr := none }

/-- A transport that answers every call with the given status, an empty
body and no error. -/
def statusTransport (code : Int) : Transport Unit :=
  fun _ _ => { resp := some { StatusCode := code, Body := some (bodyOf "") }, err := none }

/-- A transport whose calls fail to connect: no response, an error. -/
def refusedTransport : Transport Unit :=
  fun _ _ => { resp := none, err := some "dial tcp: connection refused" }

/-- A transport that hands back both a 200 response with an empty JSON array
and an error. -/
def bothTransport : Transport Unit :=
  fun _ _ => { resp := some { StatusCode := 200, Body := some (bodyOf "[]") },
               err := some "stopped after 10 redirects" }

/-- First sample domain. -/
def domainOne : Domain :=
  { ID := 1, Domain := "example.com", Status := "active", ExpiryDate := "2027-01-01",
    RegisteredDate := "2020-01-01", Renew := true, Registrant := "Ola Nordmann",
    Nameservers := some ["ns1.hyp.net", "ns2.hyp.net"],
    Services := { Registrar := true, DNS := true, Email := false, Webhotel := "none" } }

/-- Second sample domain. -/
def domainTwo : Domain :=
  { ID := 2, Domain := "example.no", Status := "active", ExpiryDate := "2028-06-30",
    RegisteredDate := "2021-06-30", Renew := false, Registrant := "Kari Nordmann",
    Nameservers := some ["ns1.hyp.net"],
    Services := { Registrar := true, DNS := false, Email := true, Webhotel := "small" } }

/-- The JSON text of the array holding the two sample domains. -/
def twoDomainsJSON : String :=
  "[\x7b\"id\":1,\"domain\":\"example.com\",\"status\":\"active\"," ++
  "\"expiry_date\":\"2027-01-01\",\"registered_date\":\"2020-01-01\"," ++
  "\"renew\":true,\"registrant\":\"Ola Nordmann\"," ++
  "\"nameservers\":[\"ns1.hyp.net\",\"ns2.hyp.net\"]," ++
  "\"services\":\x7b\"registrar\":true,\"dns\":true,\"email\":false," ++
  "\"webhotel\":\"none\"\x7d\x7d," ++
  "\x7b\"id\":2,\"domain\":\"example.no\",\"status\":\"active\"," ++
  "\"expiry_date\":\"2028-06-30\",\"registered_date\":\"2021-06-30\"," ++
  "\"renew\":false,\"registrant\":\"Kari Nordmann\"," ++
  "\"nameservers\":[\"ns1.hyp.net\"]," ++
  "\"services\":\x7b\"registrar\":true,\"dns\":false,\"email\":true," ++
  "\"webhotel\":\"small\"\x7d\x7d]"

/-- The message of the decode error for an empty body.  The concrete checks
below hand the decoders no other body that fails to decode. -/
def emptyBodyError : String → String := fun _ => "unexpected end of JSON input"

/-- The decoder of `GetDomains` in the concrete checks. -/
def sampleUnmarshal : Unmarshal Domain := jsonUnmarshalDomains emptyBodyError

/-- The decoder of `ListDNSRecords` in the concrete checks. -/
def sampleUnmarshalRecords : Unmarshal DNSRecord := jsonUnmarshalRecords emptyBodyError

/-- A transport that answers every call with the given status and a response
whose `Body` is `nil`, without error. -/
def nilBodyTransport (code : Int) : Transport Unit :=
  fun _ _ => { resp := some { StatusCode := code, Body := none }, err := none }

/-! ## Record validator: characterisation -/

/-- C1: `validateDNSRecord r` is true exactly when `Host`, `Type` and `Data`
are non-empty, an `MX` record has a non-empty `Priority`, and an `SRV` record
has non-empty `Priority`, `Weight` and `Port`; replacing `ID` and `TTL` by any
other values never changes the result. -/
theorem validateDNSRecord_iff (r : DNSRecord) :
    (validateDNSRecord r = true ↔
      (r.Host ≠ "" ∧ r.Type_ ≠ "" ∧ r.Data ≠ "") ∧
      (r.Type_ = "MX" → r.Priority ≠ "") ∧
      (r.Type_ = "SRV" → r.Priority ≠ "" ∧ r.Weight ≠ "" ∧ r.Port ≠ "")) ∧
    (∀ (id ttl : Int),
      validateDNSRecord { r with ID := id, TTL := ttl } = validateDNSRecord r) := by
  refine ⟨?_, fun _ _ => rfl⟩
  unfold validateDNSRecord
  by_cases hH : r.Host = ""
  · simp [hH]
  by_cases hT : r.Type_ = ""
  · simp [hT]
  by_cases hD : r.Data = ""
  · simp [hD]
  by_cases hMX : r.Type_ = "MX"
  · simp [hH, hD, hMX]
  by_cases hSRV : r.Type_ = "SRV"
  · simp [hH, hD, hSRV]
  · simp [hH, hT, hD, hMX, hSRV]

/-- C2: a record whose type is neither `MX` nor `SRV` and whose `Host`, `Type`
and `Data` are non-empty is accepted whatever `Priority`, `Weight` and `Port`
hold. -/
theorem validateDNSRecord_other_type (r : DNSRecord) (priority weight port : String)
    (hMX : r.Type_ ≠ "MX") (hSRV : r.Type_ ≠ "SRV")
    (hH : r.Host ≠ "") (hT : r.Type_ ≠ "") (hD : r.Data ≠ "") :
    validateDNSRecord { r with Priority := priority, Weight := weight, Port := port }
      = true := by
  simp [validateDNSRecord, hMX, hSRV, hH, hT, hD]

/-- C2 at the lower-case type `mx` with all three conditional fields empty. -/
theorem validateDNSRecord_other_type_witness :
    validateDNSRecord { recLowerMX with Priority := "", Weight := "", Port := "" } = true :=
  validateDNSRecord_other_type recLowerMX "" "" "" (by decide) (by decide) (by decide)
    (by decide) (by decide)

/-! ## Add: local validation comes first -/

/-- C3: when the record fails validation, `AddDNSRecord` returns the error
`missing required field` and leaves the world, the transport call log
included, as it was. -/
theorem AddDNSRecord_invalid {C : Type} (t : Transport C) (a : Domeneshop C)
    (domainid : Int) (r : DNSRecord) (w : World) (h : validateDNSRecord r = false) :
    AddDNSRecord t a domainid r w = (Outcome.ret (some "missing required field"), w) ∧
    (AddDNSRecord t a domainid r w).2.calls = w.calls := by
  simp [AddDNSRecord, h, ErrMissingRequiredField]

/-- C3 at an `MX` record without priority, on a transport that would answer
201 to anything. -/
theorem AddDNSRecord_invalid_witness :
    AddDNSRecord (fun _ _ => ⟨some ⟨201, some ⟨"", none⟩⟩, none⟩) sampleApi 1
        recMXNoPriority World.init
      = (Outcome.ret (some "missing required field"), World.init) ∧
    (AddDNSRecord (fun _ _ => ⟨some ⟨201, some ⟨"", none⟩⟩, none⟩) sampleApi 1
        recMXNoPriority World.init).2.calls = World.init.calls :=
  AddDNSRecord_invalid _ sampleApi 1 recMXNoPriority World.init (by decide)

/-! ## Request paths -/

/-- The path built by `GetDomains` is the documented one. -/
theorem GetDomains_url (filter : String) :
    (if filter ≠ "" then "/domains" ++ "?domain=" ++ filter else "/domains")
      = endpointDomains filter := by
  unfold endpointDomains
  by_cases h : filter = ""
  · simp [h]
  · simp only [h, ne_eq, not_false_eq_true, if_true, if_false]
    rfl

/-- The path built by `ListDNSRecords` is the documented one. -/
theorem ListDNSRecords_path (domainid : Int) (host dnstype : String) :
    (if dnstype ≠ "" ∧ host ≠ "" then
        "/domains/" ++ fmtInt domainid ++ "/dns" ++ "?host=" ++ host ++ "&type=" ++ dnstype
      else if host ≠ "" then "/domains/" ++ fmtInt domainid ++ "/dns" ++ "?host=" ++ host
      else if dnstype ≠ "" then "/domains/" ++ fmtInt domainid ++ "/dns" ++ "?type=" ++ dnstype
      else "/domains/" ++ fmtInt domainid ++ "/dns")
      = endpointDNS domainid ++ endpointQuery host dnstype := by
  unfold endpointDNS endpointQuery
  by_cases hh : host = "" <;> by_cases ht : dnstype = "" <;>
    simp only [hh, ht, ne_eq, not_true_eq_false, not_false_eq_true, and_self, and_true,
      and_false, false_and, true_and, if_true, if_false, String.append_assoc,
      String.append_empty]

/-! ## Unexpected status codes -/

/-- `GetDomains` on a reply without error whose status is not 200. -/
theorem GetDomains_status {C : Type} (t : Transport C) (um : Unmarshal Domain)
    (a : Domeneshop C) (filter : String) (w : World) (c : Int) (body : Option Body)
    (h : t a.client (reqGetDomains filter) = ⟨some ⟨c, body⟩, none⟩) (hc : c ≠ 200) :
    (GetDomains t um a filter w).1
      = Outcome.ret (none, some ("http error: " ++ fmtInt c)) := by
  simp only [reqGetDomains] at h
  simp only [GetDomains, send, GetDomains_url, h, hc, ne_eq, not_false_eq_true, if_true]

/-- `ListDNSRecords` on a reply without error whose status is not 200. -/
theorem ListDNSRecords_status {C : Type} (t : Transport C) (um : Unmarshal DNSRecord)
    (a : Domeneshop C) (domainid : Int) (host dnstype : String) (w : World) (c : Int)
    (body : Option Body)
    (h : t a.client (reqListDNSRecords domainid host dnstype) = ⟨some ⟨c, body⟩, none⟩)
    (hc : c ≠ 200) :
    (ListDNSRecords t um a domainid host dnstype w).1
      = Outcome.ret (none, some ("http error: " ++ fmtInt c)) := by
  simp only [reqListDNSRecords] at h
  simp only [ListDNSRecords, send, ListDNSRecords_path, h, hc, ne_eq, not_false_eq_true,
    if_true]

/-- `AddDNSRecord` with a valid record on a reply without error whose status
is not 201. -/
theorem AddDNSRecord_status {C : Type} (t : Transport C) (a : Domeneshop C)
    (domainid : Int) (value : DNSRecord) (w : World) (c : Int) (body : Option Body)
    (hv : validateDNSRecord value = true)
    (h : t a.client (reqAddDNSRecord domainid value) = ⟨some ⟨c, body⟩, none⟩)
    (hc : c ≠ 201) :
    (AddDNSRecord t a domainid value w).1
      = Outcome.ret (some ("http error: " ++ fmtInt c)) := by
  simp only [reqAddDNSRecord, endpointDNS] at h
  simp only [AddDNSRecord, send, hv, h, hc, ne_eq, not_false_eq_true, if_true, not_true_eq_false,
    if_false]

/-- `UpdateDNSRecord` on a reply without error, with a body, whose status is
not 204. -/
theorem UpdateDNSRecord_status {C : Type} (t : Transport C) (a : Domeneshop C)
    (domainid dnsrecordid : Int) (value : DNSRecord) (w : World) (c : Int) (b : Body)
    (h : t a.client (reqUpdateDNSRecord domainid dnsrecordid value) = ⟨some ⟨c, some b⟩, none⟩)
    (hc : c ≠ 204) :
    (UpdateDNSRecord t a domainid dnsrecordid value w).1
      = Outcome.ret (some ("http error: " ++ fmtInt c)) := by
  simp only [reqUpdateDNSRecord, endpointRecord] at h
  simp only [UpdateDNSRecord, send, h, hc, ne_eq, not_false_eq_true, if_true]

/-- `DeleteDNSRecord` on a reply without error whose status is not 204. -/
theorem DeleteDNSRecord_status {C : Type} (t : Transport C) (a : Domeneshop C)
    (domainid dnsrecordid : Int) (w : World) (c : Int) (body : Option Body)
    (h : t a.client (reqDeleteDNSRecord domainid dnsrecordid) = ⟨some ⟨c, body⟩, none⟩)
    (hc : c ≠ 204) :
    (DeleteDNSRecord t a domainid dnsrecordid w).1
      = Outcome.ret (some ("http error: " ++ fmtInt c)) := by
  simp only [reqDeleteDNSRecord, endpointRecord] at h
  simp only [DeleteDNSRecord, send, h, hc, ne_eq, not_false_eq_true, if_true]

/-- Unexpected status codes, where they are reported: when the transport
answers the operation's request without error and with a status code `c`
other than the operation's success code (200, 200, 201, 204, 204), the
operation returns the error `http error: <c>`; the two list operations return
the nil slice, whatever the decoder would have made of the body.
`AddDNSRecord` is taken on a record that passes validation, and
`UpdateDNSRecord` on a response that has a body. -/
theorem unexpected_status_is_reported {C : Type} (t : Transport C) (a : Domeneshop C)
    (w : World) (c : Int) :
    (∀ (um : Unmarshal Domain) (filter : String) (body : Option Body),
      t a.client (reqGetDomains filter) = ⟨some ⟨c, body⟩, none⟩ → c ≠ 200 →
      (GetDomains t um a filter w).1
        = Outcome.ret (none, some ("http error: " ++ fmtInt c))) ∧
    (∀ (um : Unmarshal DNSRecord) (domainid : Int) (host dnstype : String)
        (body : Option Body),
      t a.client (reqListDNSRecords domainid host dnstype) = ⟨some ⟨c, body⟩, none⟩ →
      c ≠ 200 →
      (ListDNSRecords t um a domainid host dnstype w).1
        = Outcome.ret (none, some ("http error: " ++ fmtInt c))) ∧
    (∀ (domainid : Int) (value : DNSRecord) (body : Option Body),
      validateDNSRecord value = true →
      t a.client (reqAddDNSRecord domainid value) = ⟨some ⟨c, body⟩, none⟩ → c ≠ 201 →
      (AddDNSRecord t a domainid value w).1
        = Outcome.ret (some ("http error: " ++ fmtInt c))) ∧
    (∀ (domainid dnsrecordid : Int) (value : DNSRecord) (b : Body),
      t a.client (reqUpdateDNSRecord domainid dnsrecordid value) = ⟨some ⟨c, some b⟩, none⟩ →
      c ≠ 204 →
      (UpdateDNSRecord t a domainid dnsrecordid value w).1
        = Outcome.ret (some ("http error: " ++ fmtInt c))) ∧
    (∀ (domainid dnsrecordid : Int) (body : Option Body),
      t a.client (reqDeleteDNSRecord domainid dnsrecordid) = ⟨some ⟨c, body⟩, none⟩ →
      c ≠ 204 →
      (DeleteDNSRecord t a domainid dnsrecordid w).1
        = Outcome.ret (some ("http error: " ++ fmtInt c))) :=
  ⟨fun um filter body h hc => GetDomains_status t um a filter w c body h hc,
   fun um domainid host dnstype body h hc =>
     ListDNSRecords_status t um a domainid host dnstype w c body h hc,
   fun domainid value body hv h hc => AddDNSRecord_status t a domainid value w c body hv h hc,
   fun domainid dnsrecordid value b h hc =>
     UpdateDNSRecord_status t a domainid dnsrecordid value w c b h hc,
   fun domainid dnsrecordid body h hc =>
     DeleteDNSRecord_status t a domainid dnsrecordid w c body h hc⟩

/-- On a transport that answers 404 with a body to everything, all five
operations return `http error: 404`, the list operations with a nil slice. -/
theorem unexpected_status_is_reported_witness :
    (GetDomains (statusTransport 404) sampleUnmarshal sampleApi "example.com" World.init).1
      = Outcome.ret (none, some "http error: 404") ∧
    (ListDNSRecords (statusTransport 404) sampleUnmarshalRecords sampleApi 5 "www" "A"
        World.init).1
      = Outcome.ret (none, some "http error: 404") ∧
    (AddDNSRecord (statusTransport 404) sampleApi 5 recValid World.init).1
      = Outcome.ret (some "http error: 404") ∧
    (UpdateDNSRecord (statusTransport 404) sampleApi 5 9 recValid World.init).1
      = Outcome.ret (some "http error: 404") ∧
    (DeleteDNSRecord (statusTransport 404) sampleApi 5 9 World.init).1
      = Outcome.ret (some "http error: 404") :=
  ⟨(unexpected_status_is_reported (statusTransport 404) sampleApi World.init 404).1
      sampleUnmarshal "example.com" (some (bodyOf "")) rfl (by decide),
   (unexpected_status_is_reported (statusTransport 404) sampleApi World.init 404).2.1
      sampleUnmarshalRecords 5 "www" "A" (some (bodyOf "")) rfl (by decide),
   (unexpected_status_is_reported (statusTransport 404) sampleApi World.init 404).2.2.1
      5 recValid (some (bodyOf "")) (by decide) rfl (by decide),
   (unexpected_status_is_reported (statusTransport 404) sampleApi World.init 404).2.2.2.1
      5 9 recValid (bodyOf "") rfl (by decide),
   (unexpected_status_is_reported (statusTransport 404) sampleApi World.init 404).2.2.2.2
      5 9 (some (bodyOf "")) rfl (by decide)⟩

/-- C4 fails for `UpdateDNSRecord`: on a 404 response whose `Body` is `nil` it
panics on the deferred `resp.Body.Close()` and returns no error at all, while
`AddDNSRecord`, which guards the same call with `resp.Body != nil`, returns
`http error: 404` on that response. -/
theorem UpdateDNSRecord_panics_on_status :
    UpdateDNSRecord (nilBodyTransport 404) sampleApi 5 9 recValid World.init
      = (Outcome.panic,
          { calls := [⟨Method.PUT, "/domains/5/dns/9", some recValid⟩], closed := false,
            stdout := [] }) ∧
    AddDNSRecord (nilBodyTransport 404) sampleApi 5 recValid World.init
      = (Outcome.ret (some "http error: 404"),
          { calls := [⟨Method.POST, "/domains/5/dns", some recValid⟩], closed := false,
            stdout := [] }) := by
  constructor <;> rfl

/-! ## Transport errors -/

/-- `ListDNSRecords` returns the transport error with a nil slice. -/
theorem ListDNSRecords_transport_error {C : Type} (t : Transport C)
    (um : Unmarshal DNSRecord) (a : Domeneshop C) (domainid : Int) (host dnstype : String)
    (w : World) (resp : Option Response) (e : String)
    (h : t a.client (reqListDNSRecords domainid host dnstype) = ⟨resp, some e⟩) :
    (ListDNSRecords t um a domainid host dnstype w).1 = Outcome.ret (none, some e) := by
  simp only [reqListDNSRecords] at h
  simp only [ListDNSRecords, send, ListDNSRecords_path, h]

/-- `AddDNSRecord` with a valid record returns the transport error. -/
theorem AddDNSRecord_transport_error {C : Type} (t : Transport C) (a : Domeneshop C)
    (domainid : Int) (value : DNSRecord) (w : World) (resp : Option Response) (e : String)
    (hv : validateDNSRecord value = true)
    (h : t a.client (reqAddDNSRecord domainid value) = ⟨resp, some e⟩) :
    (AddDNSRecord t a domainid value w).1 = Outcome.ret (some e) := by
  simp only [reqAddDNSRecord, endpointDNS] at h
  simp only [AddDNSRecord, send, hv, h, not_true_eq_false, if_false]

/-- `UpdateDNSRecord` returns the transport error. -/
theorem UpdateDNSRecord_transport_error {C : Type} (t : Transport C) (a : Domeneshop C)
    (domainid dnsrecordid : Int) (value : DNSRecord) (w : World) (resp : Option Response)
    (e : String)
    (h : t a.client (reqUpdateDNSRecord domainid dnsrecordid value) = ⟨resp, some e⟩) :
    (UpdateDNSRecord t a domainid dnsrecordid value w).1 = Outcome.ret (some e) := by
  simp only [reqUpdateDNSRecord, endpointRecord] at h
  simp only [UpdateDNSRecord, send, h]

/-- `DeleteDNSRecord` returns the transport error. -/
theorem DeleteDNSRecord_transport_error {C : Type} (t : Transport C) (a : Domeneshop C)
    (domainid dnsrecordid : Int) (w : World) (resp : Option Response) (e : String)
    (h : t a.client (reqDeleteDNSRecord domainid dnsrecordid) = ⟨resp, some e⟩) :
    (DeleteDNSRecord t a domainid dnsrecordid w).1 = Outcome.ret (some e) := by
  simp only [reqDeleteDNSRecord, endpointRecord] at h
  simp only [DeleteDNSRecord, send, h]

/-- C5 fails for `GetDomains`: when the transport call fails, the error is
printed and the function goes on.  With no response beside the error it panics
on `resp.StatusCode`; with a 200 response beside the error it returns the
decoded slice and a nil error.  In neither case is an error returned. -/
theorem GetDomains_drops_transport_error :
    GetDomains refusedTransport sampleUnmarshal sampleApi "" World.init
      = (Outcome.panic,
          { calls := [⟨Method.GET, "/domains", none⟩], closed := false,
            stdout := ["dial tcp: connection refused\n"] }) ∧
    GetDomains bothTransport sampleUnmarshal sampleApi "" World.init
      = (Outcome.ret (some [], none),
          { calls := [⟨Method.GET, "/domains", none⟩], closed := true,
            stdout := ["stopped after 10 redirects\n"] }) := by
  constructor <;> rfl

/-! ## Requests issued -/

/-- C6: every operation issues exactly the documented request.  `GetDomains`
asks for `/domains` with `?domain=<filter>` when the filter is non-empty;
`ListDNSRecords` asks for `/domains/<id>/dns` with the query built from the
host and type filters; `AddDNSRecord` (on a record that passes validation)
posts to `/domains/<id>/dns`; `UpdateDNSRecord` and `DeleteDNSRecord` use
`/domains/<id>/dns/<recordId>`. -/
theorem requests_match_endpoints {C : Type} (t : Transport C) (a : Domeneshop C)
    (w : World) (domainid dnsrecordid : Int) :
    (∀ (um : Unmarshal Domain) (filter : String),
      (GetDomains t um a filter w).2.calls = w.calls ++ [reqGetDomains filter]) ∧
    (∀ (um : Unmarshal DNSRecord) (host dnstype : String),
      (ListDNSRecords t um a domainid host dnstype w).2.calls
        = w.calls ++ [reqListDNSRecords domainid host dnstype]) ∧
    (∀ (value : DNSRecord), validateDNSRecord value = true →
      (AddDNSRecord t a domainid value w).2.calls
        = w.calls ++ [reqAddDNSRecord domainid value]) ∧
    (∀ (value : DNSRecord),
      (UpdateDNSRecord t a domainid dnsrecordid value w).2.calls
        = w.calls ++ [reqUpdateDNSRecord domainid dnsrecordid value]) ∧
    (DeleteDNSRecord t a domainid dnsrecordid w).2.calls
        = w.calls ++ [reqDeleteDNSRecord domainid dnsrecordid] := by
  refine ⟨?_, ?_, ?_, ?_, ?_⟩
  · intro um filter
    simp only [GetDomains, send, GetDomains_url, reqGetDomains]
    rcases t a.client ⟨Method.GET, endpointDomains filter, none⟩ with ⟨resp, err⟩
    rcases resp with _ | ⟨c, body⟩ <;> rcases err with _ | e
    · rfl
    · rfl
    · by_cases hc : c = 200
      · rcases body with _ | b <;> simp [hc, World.close]
      · simp [hc]
    · by_cases hc : c = 200
      · rcases body with _ | b <;> simp [hc, World.close, World.println]
      · simp [hc, World.println]
  · intro um host dnstype
    simp only [ListDNSRecords, send, ListDNSRecords_path, reqListDNSRecords]
    rcases t a.client ⟨Method.GET, endpointDNS domainid ++ endpointQuery host dnstype, none⟩
      with ⟨resp, err⟩
    rcases err with _ | e
    · rcases resp with _ | ⟨c, body⟩
      · rfl
      · by_cases hc : c = 200
        · rcases body with _ | b <;> simp [hc, World.close]
        · simp [hc]
    · rfl
  · intro value hv
    simp only [AddDNSRecord, send, hv, reqAddDNSRecord, endpointDNS, not_true_eq_false,
      if_false]
    rcases t a.client ⟨Method.POST, "/domains/" ++ fmtInt domainid ++ "/dns", some value⟩
      with ⟨resp, err⟩
    rcases err with _ | e
    · rcases resp with _ | ⟨c, body⟩
      · rfl
      · by_cases hc : c = 201 <;> rcases body with _ | b <;> simp [hc, World.close]
    · rfl
  · intro value
    simp only [UpdateDNSRecord, send, reqUpdateDNSRecord, endpointRecord]
    rcases t a.client
      ⟨Method.PUT, "/domains/" ++ fmtInt domainid ++ "/dns/" ++ fmtInt dnsrecordid, some value⟩
      with ⟨resp, err⟩
    rcases err with _ | e
    · rcases resp with _ | ⟨c, body⟩
      · rfl
      · rcases body with _ | b
        · rfl
        · rfl
    · rfl
  · simp only [DeleteDNSRecord, send, reqDeleteDNSRecord, endpointRecord]
    rcases t a.client
      ⟨Method.DELETE, "/domains/" ++ fmtInt domainid ++ "/dns/" ++ fmtInt dnsrecordid, none⟩
      with ⟨resp, err⟩
    rcases err with _ | e
    · rcases resp with _ | ⟨c, body⟩
      · rfl
      · by_cases hc : c = 204 <;> simp [hc]
    · rfl

/-- C6 on concrete arguments, one request per filter combination. -/
theorem requests_match_endpoints_witness :
    (GetDomains (statusTransport 200) sampleUnmarshal sampleApi "" World.init).2.calls
      = [⟨Method.GET, "/domains", none⟩] ∧
    (GetDomains (statusTransport 200) sampleUnmarshal sampleApi "example.com"
        World.init).2.calls
      = [⟨Method.GET, "/domains?domain=example.com", none⟩] ∧
    (ListDNSRecords (statusTransport 200) sampleUnmarshalRecords sampleApi 42 "" ""
        World.init).2.calls
      = [⟨Method.GET, "/domains/42/dns", none⟩] ∧
    (ListDNSRecords (statusTransport 200) sampleUnmarshalRecords sampleApi 42 "www" ""
        World.init).2.calls
      = [⟨Method.GET, "/domains/42/dns?host=www", none⟩] ∧
    (ListDNSRecords (statusTransport 200) sampleUnmarshalRecords sampleApi 42 "" "A"
        World.init).2.calls
      = [⟨Method.GET, "/domains/42/dns?type=A", none⟩] ∧
    (ListDNSRecords (statusTransport 200) sampleUnmarshalRecords sampleApi 42 "www" "A"
        World.init).2.calls
      = [⟨Method.GET, "/domains/42/dns?host=www&type=A", none⟩] ∧
    (AddDNSRecord (statusTransport 201) sampleApi 42 recValid World.init).2.calls
      = [⟨Method.POST, "/domains/42/dns", some recValid⟩] ∧
    (UpdateDNSRecord (statusTransport 204) sampleApi 42 7 recValid World.init).2.calls
      = [⟨Method.PUT, "/domains/42/dns/7", some recValid⟩] ∧
    (DeleteDNSRecord (statusTransport 204) sampleApi 42 7 World.init).2.calls
      = [⟨Method.DELETE, "/domains/42/dns/7", none⟩] :=
  ⟨(requests_match_endpoints (statusTransport 200) sampleApi World.init 42 7).1
      sampleUnmarshal "",
   (requests_match_endpoints (statusTransport 200) sampleApi World.init 42 7).1
      sampleUnmarshal "example.com",
   (requests_match_endpoints (statusTransport 200) sampleApi World.init 42 7).2.1
      sampleUnmarshalRecords "" "",
   (requests_match_endpoints (statusTransport 200) sampleApi World.init 42 7).2.1
      sampleUnmarshalRecords "www" "",
   (requests_match_endpoints (statusTransport 200) sampleApi World.init 42 7).2.1
      sampleUnmarshalRecords "" "A",
   (requests_match_endpoints (statusTransport 200) sampleApi World.init 42 7).2.1
      sampleUnmarshalRecords "www" "A",
   (requests_match_endpoints (statusTransport 201) sampleApi World.init 42 7).2.2.1
      recValid (by decide),
   (requests_match_endpoints (statusTransport 204) sampleApi World.init 42 7).2.2.2.1
      recValid,
   (requests_match_endpoints (statusTransport 204) sampleApi World.init 42 7).2.2.2.2⟩

/-! ## Release of the response body -/

/-- Where the body is released: `AddDNSRecord` and `UpdateDNSRecord` close a
body they were given on every return, and the two list operations close it
once the status is 200. -/
theorem body_closed_where_deferred {C : Type} (t : Transport C) (a : Domeneshop C)
    (w : World) (domainid dnsrecordid : Int) (c : Int) (b : Body) :
    (∀ (value : DNSRecord), validateDNSRecord value = true →
      t a.client (reqAddDNSRecord domainid value) = ⟨some ⟨c, some b⟩, none⟩ →
      (AddDNSRecord t a domainid value w).2.closed = true) ∧
    (∀ (value : DNSRecord),
      t a.client (reqUpdateDNSRecord domainid dnsrecordid value) = ⟨some ⟨c, some b⟩, none⟩ →
      (UpdateDNSRecord t a domainid dnsrecordid value w).2.closed = true) ∧
    (∀ (um : Unmarshal Domain) (filter : String) (err : GoError),
      t a.client (reqGetDomains filter) = ⟨some ⟨200, some b⟩, err⟩ →
      (GetDomains t um a filter w).2.closed = true) ∧
    (∀ (um : Unmarshal DNSRecord) (host dnstype : String),
      t a.client (reqListDNSRecords domainid host dnstype) = ⟨some ⟨200, some b⟩, none⟩ →
      (ListDNSRecords t um a domainid host dnstype w).2.closed = true) := by
  refine ⟨?_, ?_, ?_, ?_⟩
  · intro value hv h
    simp only [reqAddDNSRecord, endpointDNS] at h
    by_cases hc : c = 201 <;>
      simp [AddDNSRecord, send, hv, h, hc, World.close]
  · intro value h
    simp only [reqUpdateDNSRecord, endpointRecord] at h
    simp [UpdateDNSRecord, send, h, World.close]
  · intro um filter err h
    simp only [reqGetDomains] at h
    simp only [GetDomains, send, GetDomains_url, h]
    rcases err with _ | e <;> simp [World.close, World.println]
  · intro um host dnstype h
    simp only [reqListDNSRecords] at h
    simp only [ListDNSRecords, send, ListDNSRecords_path, h]
    simp [World.close]

/-- `DeleteDNSRecord` never closes a body: after it returns, the closed flag
of the latest response is false. -/
theorem DeleteDNSRecord_never_closes {C : Type} (t : Transport C) (a : Domeneshop C)
    (domainid dnsrecordid : Int) (w : World) :
    (DeleteDNSRecord t a domainid dnsrecordid w).2.closed = false := by
  simp only [DeleteDNSRecord, send]
  rcases t a.client
    ⟨Method.DELETE, "/domains/" ++ fmtInt domainid ++ "/dns/" ++ fmtInt dnsrecordid, none⟩
    with ⟨resp, err⟩
  rcases err with _ | e
  · rcases resp with _ | ⟨c, body⟩
    · rfl
    · by_cases hc : c = 204 <;> simp [hc]
  · rfl

/-- C7 fails: `DeleteDNSRecord` returns success on a 204 response and leaves
the body open; `GetDomains` and `ListDNSRecords` return `http error: 404` on a
404 response and leave the body open, since they reach the deferred `Close`
only after the status check. -/
theorem body_left_open :
    DeleteDNSRecord (statusTransport 204) sampleApi 5 9 World.init
      = (Outcome.ret none,
          { calls := [⟨Method.DELETE, "/domains/5/dns/9", none⟩], closed := false,
            stdout := [] }) ∧
    GetDomains (statusTransport 404) sampleUnmarshal sampleApi "" World.init
      = (Outcome.ret (none, some "http error: 404"),
          { calls := [⟨Method.GET, "/domains", none⟩], closed := false, stdout := [] }) ∧
    ListDNSRecords (statusTransport 404) sampleUnmarshalRecords sampleApi 5 "" "" World.init
      = (Outcome.ret (none, some "http error: 404"),
          { calls := [⟨Method.GET, "/domains/5/dns", none⟩], closed := false,
            stdout := [] }) := by
  refine ⟨?_, ?_, ?_⟩ <;> rfl

/-! ## JSON: what is written reads back -/

/-! ## string round trip -/

theorem hexVal_hexDigit : ∀ k, k < 16 → hexVal (hexDigit k) = some k := by decide

theorem parseStringBody_cons (c : Char) (cs : List Char) :
    parseStringBody (c :: cs) =
      if c = quoteChar then some ([], cs)
      else if c = backslash then
        match cs with
        | [] => none
        | e :: cs1 =>
          if e = 'u' then
            match cs1 with
            | h1 :: h2 :: h3 :: h4 :: cs2 =>
              match hex4 h1 h2 h3 h4 with
              | none => none
              | some u => (parseStringBody cs2).map fun (us, r) => (u :: us, r)
            | _ => none
          else
            match unescape e with
            | some ch => (parseStringBody cs1).map fun (us, r) => (ch.toNat :: us, r)
            | none => none
      else if c.toNat < 32 then none
      else (parseStringBody cs).map fun (us, r) => (c.toNat :: us, r) := by
  rw [parseStringBody.eq_def]

theorem char_eq_of_toNat {c d : Char} (h : c.toNat = d.toNat) : c = d := by
  apply Char.ext
  apply UInt32.ext
  exact h

theorem parseStringBody_escapeChar (c : Char) (tail : List Char) :
    parseStringBody (escapeChar c ++ tail)
      = (parseStringBody tail).map fun (us, r) => (c.toNat :: us, r) := by
  unfold escapeChar
  split_ifs with h1 h2 h3 h4 h5 h6 h7 h8 h9
  · subst h1
    simp [parseStringBody_cons, unescape, show backslash ≠ quoteChar by decide,
      show quoteChar ≠ 'u' by decide]
  · subst h2
    simp [parseStringBody_cons, unescape, show backslash ≠ quoteChar by decide,
      show backslash ≠ 'u' by decide]
  · simp [parseStringBody_cons, unescape, show backslash ≠ quoteChar by decide,
      show 'n' ≠ quoteChar by decide, show 'n' ≠ backslash by decide, h3]
  · simp [parseStringBody_cons, unescape, show backslash ≠ quoteChar by decide,
      show 'r' ≠ quoteChar by decide, show 'r' ≠ backslash by decide, h4]
  · simp [parseStringBody_cons, unescape, show backslash ≠ quoteChar by decide,
      show 't' ≠ quoteChar by decide, show 't' ≠ backslash by decide, h5]
  · simp [parseStringBody_cons, unescape, show backslash ≠ quoteChar by decide,
      show 'b' ≠ quoteChar by decide, show 'b' ≠ backslash by decide, h6]
  · simp [parseStringBody_cons, unescape, show backslash ≠ quoteChar by decide,
      show 'f' ≠ quoteChar by decide, show 'f' ≠ backslash by decide, h7]
  · have hlt : c.toNat < 256 := by
      rcases h8 with h | h | h | h
      · omega
      · subst h; decide
      · subst h; decide
      · subst h; decide
    have e1 := hexVal_hexDigit (c.toNat / 16) (by omega)
    have e2 := hexVal_hexDigit (c.toNat % 16) (by omega)
    simp [parseStringBody_cons, show backslash ≠ quoteChar by decide, hex4, e1, e2,
      show hexVal '0' = some 0 by decide]
    have e3 : c.toNat / 16 * 16 + c.toNat % 16 = c.toNat := by omega
    rw [e3]
  · have e2 := hexVal_hexDigit (c.toNat % 16) (by omega)
    have e3 : 2 * 4096 + 0 * 256 + 2 * 16 + c.toNat % 16 = c.toNat := by omega
    simp [parseStringBody_cons, show backslash ≠ quoteChar by decide, hex4, e2,
      show hexVal '0' = some 0 by decide, show hexVal '2' = some 2 by decide]
    rw [show 8224 + c.toNat % 16 = c.toNat by omega]
  · simp only [parseStringBody_cons, h1, h2, if_false, List.cons_append, List.nil_append]
    rw [if_neg (fun h => h8 (Or.inl h))]

/-- Reading back the escaped characters of a string gives its characters as
code units. -/
theorem parseStringBody_encoded (cs : List Char) (rest : List Char) :
    parseStringBody (cs.flatMap escapeChar ++ quoteChar :: rest)
      = some (cs.map Char.toNat, rest) := by
  induction cs with
  | nil => simp [parseStringBody_cons]
  | cons c cs ih =>
    simp only [List.flatMap_cons, List.append_assoc, List.map_cons]
    rw [parseStringBody_escapeChar, ih]
    rfl

theorem char_not_surrogate (c : Char) : isHigh c.toNat = false ∧ isLow c.toNat = false := by
  have h := c.valid
  simp only [isHigh, isLow]
  have : c.toNat = c.val.toNat := rfl
  rw [this]
  rcases h with h | h
  · constructor <;> simp <;> omega
  · constructor <;> simp <;> omega

theorem decodeUnits_toNat (cs : List Char) : decodeUnits none (cs.map Char.toNat) = cs := by
  induction cs with
  | nil => rfl
  | cons c cs ih =>
    simp only [List.map_cons, decodeUnits, (char_not_surrogate c).1, (char_not_surrogate c).2,
      runeOf, ih, Bool.false_eq_true, if_false]
    simp

/-- A string literal reads back as the string it was written from. -/
theorem parseString_encoded (s : String) (rest : List Char) :
    parseString (s.toList.flatMap escapeChar ++ quoteChar :: rest) = some (s, rest) := by
  simp [parseString, parseStringBody_encoded, decodeUnits_toNat]


/-! ## number round trip -/

theorem digitChar_spec : ∀ k, k < 10 →
    isDigit (Nat.digitChar k) = true ∧ (Nat.digitChar k).toNat - 48 = k ∧
    (Nat.digitChar k = '0' ↔ k = 0) := by decide

theorem ofDigits_append_single (ds : List Char) (d : Char) :
    ofDigits (ds ++ [d]) = ofDigits ds * 10 + (d.toNat - 48) := by
  simp [ofDigits, List.foldl_append]

/-- What `Nat.toDigitsCore` puts in front of its accumulator: digits, without
a leading zero unless the number is zero, whose value is the number. -/
theorem toDigitsCore_spec (fuel : Nat) : ∀ (n : Nat) (acc : List Char), n < fuel →
    ∃ ds : List Char, Nat.toDigitsCore 10 fuel n acc = ds ++ acc ∧
      (∀ c ∈ ds, isDigit c = true) ∧ ofDigits ds = n ∧
      ((n = 0 ∧ ds = ['0']) ∨ (n ≠ 0 ∧ ∃ c cs, ds = c :: cs ∧ c ≠ '0')) := by
  induction fuel with
  | zero => intro n acc h; omega
  | succ fuel ih =>
    intro n acc h
    have hd := digitChar_spec (n % 10) (Nat.mod_lt _ (by norm_num))
    simp only [Nat.toDigitsCore]
    by_cases h0 : n / 10 = 0
    · simp only [h0, if_true]
      refine ⟨[Nat.digitChar (n % 10)], rfl, ?_, ?_, ?_⟩
      · intro c hc
        simp only [List.mem_singleton] at hc
        rw [hc]; exact hd.1
      · simp only [ofDigits, List.foldl_cons, List.foldl_nil, Nat.zero_mul, Nat.zero_add]
        rw [hd.2.1]; omega
      · by_cases hn : n = 0
        · left; subst hn; exact ⟨rfl, rfl⟩
        · right
          refine ⟨hn, _, _, rfl, ?_⟩
          intro hz
          have := hd.2.2.1 hz
          omega
    · simp only [h0, if_false]
      obtain ⟨ds, hds, hall, hval, hlead⟩ := ih (n / 10) (Nat.digitChar (n % 10) :: acc)
        (by omega)
      refine ⟨ds ++ [Nat.digitChar (n % 10)], ?_, ?_, ?_, ?_⟩
      · rw [hds]; simp
      · intro c hc
        rcases List.mem_append.1 hc with hc | hc
        · exact hall c hc
        · simp only [List.mem_singleton] at hc
          rw [hc]; exact hd.1
      · rw [ofDigits_append_single, hval, hd.2.1]; omega
      · right
        refine ⟨by omega, ?_⟩
        rcases hlead with ⟨hz, _⟩ | ⟨_, c, cs, hcs, hc⟩
        · exact absurd hz h0
        · exact ⟨c, cs ++ [Nat.digitChar (n % 10)], by rw [hcs]; rfl, hc⟩

/-- The decimal text of a natural number. -/
theorem repr_spec (n : Nat) :
    (∀ c ∈ (Nat.repr n).toList, isDigit c = true) ∧ ofDigits (Nat.repr n).toList = n ∧
    ((n = 0 ∧ (Nat.repr n).toList = ['0']) ∨
      (n ≠ 0 ∧ ∃ c cs, (Nat.repr n).toList = c :: cs ∧ c ≠ '0')) := by
  obtain ⟨ds, hds, hall, hval, hlead⟩ := toDigitsCore_spec (n + 1) n [] (by omega)
  have e : (Nat.repr n).toList = ds := by
    simp [Nat.repr, Nat.toDigits, hds, List.asString]
  rw [e]
  exact ⟨hall, hval, hlead⟩

/-! ## values followed by a delimiter -/

theorem spanDigits_append (ds rest : List Char) (hall : ∀ c ∈ ds, isDigit c = true)
    (hrest : Delim rest) : spanDigits (ds ++ rest) = (ds, rest) := by
  induction ds with
  | nil =>
    obtain ⟨c, r, rfl, hc⟩ := hrest
    have : isDigit c = false := by
      rcases hc with h | h | h <;> subst h <;> decide
    simp [spanDigits, this]
  | cons d ds ih =>
    have hd := hall d (List.mem_cons_self _ _)
    have := ih (fun c hc => hall c (List.mem_cons_of_mem _ hc))
    simp [spanDigits, hd, this]

theorem parseFrac_delim (rest : List Char) (hrest : Delim rest) :
    parseFrac rest = some ([], rest) := by
  obtain ⟨c, r, rfl, hc⟩ := hrest
  have : c ≠ '.' := by
    rcases hc with h | h | h <;> subst h <;> decide
  simp [parseFrac, this]

theorem parseExp_delim (rest : List Char) (hrest : Delim rest) :
    parseExp rest = some ([], rest) := by
  obtain ⟨c, r, rfl, hc⟩ := hrest
  have : ¬ (c = 'e' ∨ c = 'E') := by
    rcases hc with h | h | h <;> subst h <;> decide
  simp [parseExp, this]

theorem isDigit_ne {c : Char} (h : isDigit c = true) (d : Char) (hd : isDigit d = false) :
    c ≠ d := by
  intro e; subst e; rw [h] at hd; exact absurd hd (by decide)

theorem parseIntPart_repr (n : Nat) (rest : List Char) (hrest : Delim rest) :
    parseIntPart ((Nat.repr n).toList ++ rest) = some ((Nat.repr n).toList, rest) := by
  obtain ⟨hall, _, hlead⟩ := repr_spec n
  rcases hlead with ⟨_, h0⟩ | ⟨_, c, cs, hcs, hc⟩
  · rw [h0]; simp [parseIntPart]
  · rw [hcs] at hall ⊢
    have hd := hall c (List.mem_cons_self _ _)
    have hsp := spanDigits_append cs rest (fun x hx => hall x (List.mem_cons_of_mem _ hx)) hrest
    simp [parseIntPart, hc, hd, hsp]

theorem repr_head_ne_minus (n : Nat) (rest : List Char) :
    ∃ c cs, (Nat.repr n).toList ++ rest = c :: cs ∧ isDigit c = true := by
  obtain ⟨hall, _, hlead⟩ := repr_spec n
  rcases hlead with ⟨_, h0⟩ | ⟨_, c, cs, hcs, _⟩
  · exact ⟨'0', rest, by rw [h0]; rfl, by decide⟩
  · exact ⟨c, cs ++ rest, by rw [hcs]; rfl, hall c (by rw [hcs]; exact List.mem_cons_self _ _)⟩

theorem encodeInt_ofNat (n : Nat) : encodeInt (Int.ofNat n) = (Nat.repr n).toList := rfl

theorem encodeInt_negSucc (n : Nat) :
    encodeInt (Int.negSucc n) = '-' :: (Nat.repr (n + 1)).toList := by
  simp [encodeInt, fmtInt]

/-- The decimal text of an `int` reads back as a number with that text. -/
theorem parseNumber_encodeInt (i : Int) (rest : List Char) (hrest : Delim rest) :
    parseNumber (encodeInt i ++ rest) = some (encodeInt i, rest) := by
  cases i with
  | ofNat n =>
    rw [encodeInt_ofNat]
    obtain ⟨c, cs, hcs, hc⟩ := repr_head_ne_minus n rest
    have hm : c ≠ '-' := isDigit_ne hc _ (by decide)
    have hip := parseIntPart_repr n rest hrest
    rw [hcs] at hip
    simp only [parseNumber, hcs, hm, if_false, hip, parseFrac_delim rest hrest,
      parseExp_delim rest hrest]
    simp
  | negSucc n =>
    rw [encodeInt_negSucc]
    simp only [parseNumber, List.cons_append, if_true, parseIntPart_repr (n + 1) rest hrest,
      parseFrac_delim rest hrest, parseExp_delim rest hrest]
    simp

/-- The decimal text of an `int` within the range of `int64` converts back to
it. -/
theorem parseInt64_encodeInt (i : Int) (h : isInt64 i) : parseInt64 (encodeInt i) = some i := by
  cases i with
  | ofNat n =>
    rw [encodeInt_ofNat]
    obtain ⟨hall, hval, _⟩ := repr_spec n
    obtain ⟨c, cs, hcs, hc⟩ := repr_head_ne_minus n []
    rw [List.append_nil] at hcs
    have hm : c ≠ '-' := isDigit_ne hc _ (by decide)
    have hlt : n < 9223372036854775808 := by
      have := h.2
      simp only [Int.ofNat_eq_coe] at this
      omega
    rw [hcs] at hall hval ⊢
    have hall' : (c :: cs).all isDigit = true := by
      rw [List.all_eq_true]; exact hall
    simp only [parseInt64, hm, if_false, hall', hval, hlt, and_self, if_true]
    rfl
  | negSucc n =>
    rw [encodeInt_negSucc]
    obtain ⟨hall, hval, _⟩ := repr_spec (n + 1)
    obtain ⟨c, cs, hcs, _⟩ := repr_head_ne_minus (n + 1) []
    rw [List.append_nil] at hcs
    have hle : n + 1 ≤ 9223372036854775808 := by
      have := h.1
      rw [Int.negSucc_eq] at this
      omega
    have hall' : (Nat.repr (n + 1)).toList.all isDigit = true := by
      rw [List.all_eq_true]; exact hall
    have hne : (Nat.repr (n + 1)).toList ≠ [] := by rw [hcs]; simp
    simp only [parseInt64, if_true, hall', hval, hle, hne, ne_eq, not_false_eq_true, and_self]
    rw [Int.negSucc_eq]
    simp

theorem parseValue_scalar (d : Nat) (c : Char) (r : List Char) (hs : isSpace c = false)
    (h1 : c ≠ '[') (h2 : c ≠ openBrace) : parseValue d (c :: r) = parseScalar (c :: r) := by
  rw [parseValue.eq_def]
  simp [skipSpace, hs, h1, h2]

theorem parseValue_encodeInt (d : Nat) (i : Int) (rest : List Char) (hrest : Delim rest) :
    parseValue d (encodeInt i ++ rest) = some (JSON.num (encodeInt i), rest) := by
  have hp := parseNumber_encodeInt i rest hrest
  have hhead : ∃ c cs, encodeInt i ++ rest = c :: cs ∧ (isDigit c = true ∨ c = '-') := by
    cases i with
    | ofNat n =>
      obtain ⟨c, cs, hcs, hc⟩ := repr_head_ne_minus n rest
      exact ⟨c, cs, by rw [encodeInt_ofNat]; exact hcs, Or.inl hc⟩
    | negSucc n => exact ⟨'-', _, by rw [encodeInt_negSucc]; rfl, Or.inr rfl⟩
  obtain ⟨c, cs, hcs, hc⟩ := hhead
  rw [hcs] at hp ⊢
  have key : isSpace c = false ∧ c ≠ '[' ∧ c ≠ openBrace ∧ c ≠ quoteChar ∧ c ≠ 't' ∧
      c ≠ 'f' ∧ c ≠ 'n' := by
    rcases hc with hc | hc
    · refine ⟨?_, isDigit_ne hc _ (by decide), isDigit_ne hc _ (by decide),
        isDigit_ne hc _ (by decide), isDigit_ne hc _ (by decide), isDigit_ne hc _ (by decide),
        isDigit_ne hc _ (by decide)⟩
      simp only [isDigit, Bool.and_eq_true, decide_eq_true_eq] at hc
      simp only [isSpace, Bool.or_eq_false_iff, decide_eq_false_iff_not]
      omega
    · subst hc; decide
  obtain ⟨k1, k2, k3, k4, k5, k6, k7⟩ := key
  rw [parseValue_scalar d c cs k1 k2 k3]
  simp [parseScalar, k4, k5, k6, k7, hp]

/-! ## arrays and objects -/

theorem skipSpace_cons (c : Char) (cs : List Char) (h : isSpace c = false) :
    skipSpace (c :: cs) = c :: cs := by
  simp [skipSpace, h]

theorem skipSpace_delim (rest : List Char) (h : Delim rest) : skipSpace rest = rest := by
  obtain ⟨c, r, rfl, hc⟩ := h
  apply skipSpace_cons
  rcases hc with h | h | h <;> subst h <;> decide

theorem delim_commaEach (x : List Char) (xs : List (List Char)) (rest : List Char) :
    Delim (commaEach (x :: xs) ++ rest) := ⟨',', _, rfl, Or.inl rfl⟩

theorem commaEach_length (xs : List (List Char)) : xs.length ≤ (commaEach xs).length := by
  induction xs with
  | nil => simp [commaEach]
  | cons x xs ih => simp [commaEach]; omega

theorem parseElems_encoded (p : List Char → Option (JSON × List Char)) :
    ∀ (xs : List (List Char × JSON)) (x : List Char × JSON) (fuel : Nat) (rest : List Char),
      (∀ it ∈ x :: xs, Enc p it.1 it.2) → xs.length < fuel →
      parseElems p fuel (x.1 ++ (commaEach (xs.map Prod.fst) ++ ']' :: rest))
        = some (x.2 :: xs.map Prod.snd, rest) := by
  intro xs
  induction xs with
  | nil =>
    intro x fuel rest hx hf
    obtain ⟨f, rfl⟩ : ∃ f, fuel = f + 1 := ⟨fuel - 1, by omega⟩
    have h1 := (hx x (List.mem_cons_self _ _)).2 (']' :: rest) ⟨']', rest, rfl, Or.inr (Or.inl rfl)⟩
    simp [parseElems, commaEach, h1, skipSpace, show isSpace ']' = false by decide]
  | cons y ys ih =>
    intro x fuel rest hx hf
    obtain ⟨f, rfl⟩ : ∃ f, fuel = f + 1 := ⟨fuel - 1, by omega⟩
    have hd : Delim (commaEach ((y :: ys).map Prod.fst) ++ ']' :: rest) :=
      delim_commaEach _ _ _
    have h1 := (hx x (List.mem_cons_self _ _)).2 _ hd
    have h2 := ih y f rest (fun it hit => hx it (List.mem_cons_of_mem _ hit))
      (by simp at hf; omega)
    simp only [parseElems, h1, skipSpace_delim _ hd]
    simp only [List.map_cons, commaEach, List.cons_append, if_true, List.append_assoc, h2]
    rfl

theorem parseValue_open_bracket (d : Nat) (r : List Char) :
    parseValue (d + 1) ('[' :: r) =
      match skipSpace r with
      | [] => none
      | e :: r1 =>
        if e = ']' then some (JSON.arr [], r1)
        else (parseElems (fun x => parseValue d x) (e :: r1).length (e :: r1)).map
          fun (vs, r2) => (JSON.arr vs, r2) := by
  rw [parseValue.eq_def]
  simp [skipSpace, show isSpace '[' = false by decide]

theorem parseValue_open_brace (d : Nat) (r : List Char) :
    parseValue (d + 1) (openBrace :: r) =
      match skipSpace r with
      | [] => none
      | e :: r1 =>
        if e = closeBrace then some (JSON.obj [], r1)
        else (parseMembers (fun x => parseValue d x) (e :: r1).length (e :: r1)).map
          fun (kvs, r2) => (JSON.obj kvs, r2) := by
  rw [parseValue.eq_def]
  simp [skipSpace, show isSpace openBrace = false by decide,
    show openBrace ≠ '[' by decide]

/-- An array of encoded elements reads back as the array of their values. -/
theorem parseValue_encodeArray (d : Nat) (items : List (List Char × JSON)) (rest : List Char)
    (h : ∀ it ∈ items, Enc (fun x => parseValue d x) it.1 it.2) :
    parseValue (d + 1) (encodeArray (items.map Prod.fst) ++ rest)
      = some (JSON.arr (items.map Prod.snd), rest) := by
  cases items with
  | nil =>
    simp [encodeArray, joinComma, parseValue_open_bracket, skipSpace,
      show isSpace ']' = false by decide]
  | cons x xs =>
    obtain ⟨⟨c, cs, hcs, hsp, hne⟩, _⟩ := h x (List.mem_cons_self _ _)
    have hp := parseElems_encoded (fun x => parseValue d x) xs x
      (x.1 ++ (commaEach (xs.map Prod.fst) ++ ']' :: rest)).length rest h
      (by
        have := commaEach_length (xs.map Prod.fst)
        simp only [List.length_append, List.length_map, List.length_cons] at this ⊢
        omega)
    have e1 : encodeArray ((x :: xs).map Prod.fst) ++ rest
        = '[' :: (x.1 ++ (commaEach (xs.map Prod.fst) ++ ']' :: rest)) := by
      simp [encodeArray, joinComma]
    rw [e1, parseValue_open_bracket]
    have e2 : x.1 ++ (commaEach (xs.map Prod.fst) ++ ']' :: rest)
        = c :: (cs ++ (commaEach (xs.map Prod.fst) ++ ']' :: rest)) := by
      rw [hcs]; rfl
    rw [e2] at hp ⊢
    rw [skipSpace_cons _ _ hsp]
    simp only [hne, if_false, hp]
    rfl

theorem encodeMember_append (tag : String) (text rest : List Char) :
    encodeMember tag text ++ rest
      = quoteChar :: (tag.toList.flatMap escapeChar ++ quoteChar :: ':' :: (text ++ rest)) := by
  simp [encodeMember, encodeString]

theorem parseMembers_comma (p : List Char → Option (JSON × List Char)) (f : Nat)
    (tag : String) (text : List Char) (v : JSON) (more : List Char)
    (hp : p (text ++ ',' :: more) = some (v, ',' :: more)) :
    parseMembers p (f + 1) (encodeMember tag text ++ ',' :: more)
      = (parseMembers p f more).map fun (kvs, r) => ((tag, v) :: kvs, r) := by
  rw [encodeMember_append, parseMembers, skipSpace_cons _ _ (by decide)]
  simp only [if_true, parseString_encoded]
  rw [skipSpace_cons _ _ (by decide)]
  simp only [if_true, hp]
  rw [skipSpace_cons _ _ (by decide)]
  simp only [if_true]

theorem parseMembers_close (p : List Char → Option (JSON × List Char)) (f : Nat)
    (tag : String) (text : List Char) (v : JSON) (rest : List Char)
    (hp : p (text ++ closeBrace :: rest) = some (v, closeBrace :: rest)) :
    parseMembers p (f + 1) (encodeMember tag text ++ closeBrace :: rest)
      = some ([(tag, v)], rest) := by
  rw [encodeMember_append, parseMembers, skipSpace_cons _ _ (by decide)]
  simp only [if_true, parseString_encoded]
  rw [skipSpace_cons _ _ (by decide)]
  simp only [if_true, hp]
  rw [skipSpace_cons _ _ (by decide)]
  simp only [show closeBrace ≠ ',' by decide, if_false, if_true]

theorem parseMembers_encoded (p : List Char → Option (JSON × List Char)) :
    ∀ (ms : List (String × List Char × JSON)) (m : String × List Char × JSON) (fuel : Nat)
      (rest : List Char),
      (∀ it ∈ m :: ms, ∀ r, Delim r → p (it.2.1 ++ r) = some (it.2.2, r)) →
      ms.length < fuel →
      parseMembers p fuel
          (encodeMember m.1 m.2.1 ++
            (commaEach (ms.map fun it => encodeMember it.1 it.2.1) ++ closeBrace :: rest))
        = some ((m.1, m.2.2) :: ms.map (fun it => (it.1, it.2.2)), rest) := by
  intro ms
  induction ms with
  | nil =>
    intro m fuel rest hm hf
    obtain ⟨f, rfl⟩ : ∃ f, fuel = f + 1 := ⟨fuel - 1, by omega⟩
    have h1 := hm m (List.mem_cons_self _ _) (closeBrace :: rest)
      ⟨closeBrace, rest, rfl, Or.inr (Or.inr rfl)⟩
    simp only [List.map_nil, commaEach, List.nil_append]
    exact parseMembers_close p f m.1 m.2.1 m.2.2 rest h1
  | cons y ys ih =>
    intro m fuel rest hm hf
    obtain ⟨f, rfl⟩ : ∃ f, fuel = f + 1 := ⟨fuel - 1, by omega⟩
    have hd : Delim (commaEach ((y :: ys).map fun it => encodeMember it.1 it.2.1)
        ++ closeBrace :: rest) := delim_commaEach _ _ _
    have h1 := hm m (List.mem_cons_self _ _) _ hd
    have h2 := ih y f rest (fun it hit => hm it (List.mem_cons_of_mem _ hit))
      (by simp at hf; omega)
    simp only [List.map_cons, commaEach, List.cons_append, List.append_assoc] at h1 ⊢
    rw [parseMembers_comma p f m.1 m.2.1 m.2.2 _ h1, h2]
    rfl

/-- An object of encoded members reads back as the object of their tags and
values. -/
theorem parseValue_encodeObject (d : Nat) (m : String × List Char × JSON)
    (ms : List (String × List Char × JSON)) (rest : List Char)
    (h : ∀ it ∈ m :: ms, ∀ r, Delim r →
      (fun x => parseValue d x) (it.2.1 ++ r) = some (it.2.2, r)) :
    parseValue (d + 1)
        (encodeObject ((m :: ms).map fun it => encodeMember it.1 it.2.1) ++ rest)
      = some (JSON.obj ((m :: ms).map fun it => (it.1, it.2.2)), rest) := by
  have hp := parseMembers_encoded (fun x => parseValue d x) ms m
    (encodeMember m.1 m.2.1 ++
      (commaEach (ms.map fun it => encodeMember it.1 it.2.1) ++ closeBrace :: rest)).length
    rest h
    (by
      have := commaEach_length (ms.map fun it => encodeMember it.1 it.2.1)
      simp only [List.length_append, List.length_map, List.length_cons] at this ⊢
      omega)
  have e1 : encodeObject ((m :: ms).map fun it => encodeMember it.1 it.2.1) ++ rest
      = openBrace :: (encodeMember m.1 m.2.1 ++
          (commaEach (ms.map fun it => encodeMember it.1 it.2.1) ++ closeBrace :: rest)) := by
    simp [encodeObject, joinComma]
  rw [e1, parseValue_open_brace]
  have e2 : encodeMember m.1 m.2.1 ++
      (commaEach (ms.map fun it => encodeMember it.1 it.2.1) ++ closeBrace :: rest)
      = quoteChar :: (m.1.toList.flatMap escapeChar ++ quoteChar :: (':' :: (m.2.1 ++
          (commaEach (ms.map fun it => encodeMember it.1 it.2.1) ++ closeBrace :: rest)))) := by
    rw [encodeMember_append]
  rw [e2] at hp ⊢
  rw [skipSpace_cons _ _ (by decide)]
  simp only [show quoteChar ≠ closeBrace by decide, if_false, hp]
  rfl

/-! ## the values of the encoder -/

theorem parseValue_encodeString (d : Nat) (s : String) (rest : List Char) :
    parseValue d (encodeString s ++ rest) = some (JSON.str s, rest) := by
  simp only [encodeString, List.cons_append, List.append_assoc, List.singleton_append]
  rw [parseValue_scalar d _ _ (by decide) (by decide) (by decide)]
  simp only [parseScalar, if_true, parseString_encoded]
  rfl

theorem parseValue_encodeBool (d : Nat) (b : Bool) (rest : List Char) :
    parseValue d (encodeBool b ++ rest) = some (JSON.bool b, rest) := by
  cases b
  · simp only [encodeBool, Bool.false_eq_true, if_false, List.cons_append]
    rw [parseValue_scalar d _ _ (by decide) (by decide) (by decide)]
    simp [parseScalar, expectChars, show 'f' ≠ quoteChar by decide]
  · simp only [encodeBool, if_true, List.cons_append]
    rw [parseValue_scalar d _ _ (by decide) (by decide) (by decide)]
    simp [parseScalar, expectChars, show 't' ≠ quoteChar by decide]

theorem parseValue_encodeNull (d : Nat) (rest : List Char) :
    parseValue d (encodeNull ++ rest) = some (JSON.null, rest) := by
  simp only [encodeNull, List.cons_append]
  rw [parseValue_scalar d _ _ (by decide) (by decide) (by decide)]
  simp [parseScalar, expectChars, show 'n' ≠ quoteChar by decide]

theorem parseValue_encodeStrings (d : Nat) (ns : Slice String) (rest : List Char) :
    parseValue (d + 1) (encodeStrings ns ++ rest) = some (stringsJSON ns, rest) := by
  cases ns with
  | none => exact parseValue_encodeNull _ rest
  | some xs =>
    have h := parseValue_encodeArray d (xs.map fun s => (encodeString s, JSON.str s)) rest
      (by
        intro it hit
        obtain ⟨s, _, rfl⟩ := List.mem_map.1 hit
        exact ⟨⟨quoteChar, _, rfl, by decide, by decide⟩,
          fun r _ => parseValue_encodeString d s r⟩)
    simp only [List.map_map] at h
    exact h

theorem parseValue_encodeService (d : Nat) (s : Service) (rest : List Char) :
    parseValue (d + 1) (encodeService s ++ rest) = some (serviceJSON s, rest) := by
  have h := parseValue_encodeObject d
    ("registrar", encodeBool s.Registrar, JSON.bool s.Registrar)
    [("dns", encodeBool s.DNS, JSON.bool s.DNS),
     ("email", encodeBool s.Email, JSON.bool s.Email),
     ("webhotel", encodeString s.Webhotel, JSON.str s.Webhotel)] rest
    (by
      intro it hit r _
      simp only [List.mem_cons, List.mem_singleton, List.not_mem_nil, or_false] at hit
      rcases hit with rfl | rfl | rfl | rfl
      · exact parseValue_encodeBool d _ r
      · exact parseValue_encodeBool d _ r
      · exact parseValue_encodeBool d _ r
      · exact parseValue_encodeString d _ r)
  exact h

theorem parseValue_encodeDomain (d : Nat) (dm : Domain) (rest : List Char) :
    parseValue (d + 2) (encodeDomain dm ++ rest) = some (domainJSON dm, rest) := by
  have h := parseValue_encodeObject (d + 1)
    ("id", encodeInt dm.ID, JSON.num (encodeInt dm.ID))
    [("domain", encodeString dm.Domain, JSON.str dm.Domain),
     ("status", encodeString dm.Status, JSON.str dm.Status),
     ("expiry_date", encodeString dm.ExpiryDate, JSON.str dm.ExpiryDate),
     ("registered_date", encodeString dm.RegisteredDate, JSON.str dm.RegisteredDate),
     ("renew", encodeBool dm.Renew, JSON.bool dm.Renew),
     ("registrant", encodeString dm.Registrant, JSON.str dm.Registrant),
     ("nameservers", encodeStrings dm.Nameservers, stringsJSON dm.Nameservers),
     ("services", encodeService dm.Services, serviceJSON dm.Services)] rest
    (by
      intro it hit r hr
      simp only [List.mem_cons, List.mem_singleton, List.not_mem_nil, or_false] at hit
      rcases hit with rfl | rfl | rfl | rfl | rfl | rfl | rfl | rfl | rfl
      · exact parseValue_encodeInt _ _ r hr
      · exact parseValue_encodeString _ _ r
      · exact parseValue_encodeString _ _ r
      · exact parseValue_encodeString _ _ r
      · exact parseValue_encodeString _ _ r
      · exact parseValue_encodeBool _ _ r
      · exact parseValue_encodeString _ _ r
      · exact parseValue_encodeStrings d _ r
      · exact parseValue_encodeService d _ r)
  exact h

/-- The text written for a slice of domains reads back as its JSON value. -/
theorem parseValue_encodeDomains (d : Nat) (ds : Slice Domain) (rest : List Char) :
    parseValue (d + 3) (encodeDomains ds ++ rest) = some (domainsJSON ds, rest) := by
  cases ds with
  | none => exact parseValue_encodeNull _ rest
  | some xs =>
    have h := parseValue_encodeArray (d + 2) (xs.map fun x => (encodeDomain x, domainJSON x))
      rest
      (by
        intro it hit
        obtain ⟨x, _, rfl⟩ := List.mem_map.1 hit
        exact ⟨⟨openBrace, _, rfl, by decide, by decide⟩,
          fun r _ => parseValue_encodeDomain d x r⟩)
    simp only [List.map_map] at h
    exact h

theorem parseJSON_marshalDomains (ds : Slice Domain) :
    parseJSON (marshalDomains ds) = some (domainsJSON ds) := by
  have h := parseValue_encodeDomains 9997 ds []
  rw [List.append_nil] at h
  simp only [parseJSON, marshalDomains, maxNestingDepth, String.toList]
  rw [h]
  rfl

/-! ## storing the values back -/

theorem storeElems_strings (xs : List String) :
    ∀ backing, storeElems backing (xs.map JSON.str) = some xs := by
  induction xs with
  | nil => intro backing; rfl
  | cons x xs ih =>
    intro backing
    simp [storeElems, storeString, ih]

theorem storeStrings_stringsJSON (ns : Slice String) :
    storeStrings none [] (stringsJSON ns) = some (ns, []) := by
  cases ns with
  | none => rfl
  | some xs =>
    cases xs with
    | nil => rfl
    | cons x xs =>
      simp only [stringsJSON, List.map_cons, storeStrings]
      have := storeElems_strings (x :: xs) (Option.getD none [] ++ [])
      simp only [List.map_cons] at this
      rw [this]
      rfl

theorem storeService_serviceJSON (old s : Service) :
    storeService old (serviceJSON s) = some s := by
  simp [storeService, serviceJSON, storeServiceFields, storeServiceField, findField,
    serviceTags, storeBool, storeString, foldName]

theorem storeDomain_domainJSON (d : Domain) (h : isInt64 d.ID) :
    storeDomain (domainJSON d) = some d := by
  simp [storeDomain, domainJSON, storeDomainFields, storeDomainField, findField,
    domainTags, storeBool, storeString, storeInt, parseInt64_encodeInt _ h,
    storeStrings_stringsJSON, storeService_serviceJSON, zeroDomain, foldName]

theorem storeDomainElems_domainJSON (ds : List Domain) (h : ∀ d ∈ ds, isInt64 d.ID) :
    storeDomainElems (ds.map domainJSON) = some ds := by
  induction ds with
  | nil => rfl
  | cons d ds ih =>
    simp [storeDomainElems, storeDomain_domainJSON d (h d (List.mem_cons_self _ _)),
      ih (fun x hx => h x (List.mem_cons_of_mem _ hx))]

/-- Decoding the JSON encoding of a slice of domains gives the slice back. -/
theorem decodeDomains_marshalDomains (ds : List Domain) (h : ∀ d ∈ ds, isInt64 d.ID) :
    decodeDomains (marshalDomains (some ds)) = some (some ds) := by
  simp [decodeDomains, parseJSON_marshalDomains, domainsJSON, storeDomains,
    storeDomainElems_domainJSON ds h]

theorem decodeDomains_marshal_nil : decodeDomains (marshalDomains none) = some none := by
  simp [decodeDomains, parseJSON_marshalDomains, domainsJSON, storeDomains]


/-! ## Decoding the domain list -/

/-- What `GetDomains` makes of the decoder's result: on a 200 reply without
error and with a readable body, a decoded slice is returned as it is with a
nil error, and a decode error is returned with the nil slice. -/
theorem GetDomains_returns_decoder_result {C : Type} (t : Transport C)
    (um : Unmarshal Domain) (a : Domeneshop C) (filter : String) (w : World) (b : Body)
    (h : t a.client (reqGetDomains filter) = ⟨some ⟨200, some b⟩, none⟩)
    (hr : b.readErr = none) :
    (∀ (ds : Slice Domain), um b.data = Except.ok ds →
      (GetDomains t um a filter w).1 = Outcome.ret (ds, none)) ∧
    (∀ (e : String), um b.data = Except.error e →
      (GetDomains t um a filter w).1 = Outcome.ret (none, some e)) := by
  simp only [reqGetDomains] at h
  constructor
  · intro ds hd
    simp only [GetDomains, send, GetDomains_url, h]
    simp [hr, hd]
  · intro e hd
    simp only [GetDomains, send, GetDomains_url, h]
    simp [hr, hd]

/-- C8: with `json.Unmarshal` as the decoder, when the transport answers the
request of `GetDomains` without error and with status 200, a body that is the
JSON encoding of the sequence `ds` of domains makes `GetDomains` return exactly
`ds`, the same elements in the same order, with a nil error; a readable body
that fails to decode makes it return the nil slice with the decode error.
(The `ID` of a domain is a Go `int`, within the range of `int64`.) -/
theorem GetDomains_decodes {C : Type} (t : Transport C) (errText : String → String)
    (a : Domeneshop C) (filter : String) (w : World) :
    (∀ (ds : List Domain), (∀ d ∈ ds, isInt64 d.ID) →
      t a.client (reqGetDomains filter)
        = ⟨some ⟨200, some (bodyOf (marshalDomains (some ds)))⟩, none⟩ →
      (GetDomains t (jsonUnmarshalDomains errText) a filter w).1
        = Outcome.ret (some ds, none)) ∧
    (∀ (b : Body), t a.client (reqGetDomains filter) = ⟨some ⟨200, some b⟩, none⟩ →
      b.readErr = none → decodeDomains b.data = none →
      (GetDomains t (jsonUnmarshalDomains errText) a filter w).1
        = Outcome.ret (none, some (errText b.data))) := by
  constructor
  · intro ds hds h
    refine (GetDomains_returns_decoder_result t _ a filter w _ h rfl).1 (some ds) ?_
    simp only [jsonUnmarshalDomains, bodyOf, decodeDomains_marshalDomains ds hds]
  · intro b h hr hd
    refine (GetDomains_returns_decoder_result t _ a filter w b h hr).2 _ ?_
    simp only [jsonUnmarshalDomains, hd]

/-- The text of `twoDomainsJSON` is the JSON encoding of the two sample
domains. -/
theorem twoDomainsJSON_eq : twoDomainsJSON = marshalDomains (some [domainOne, domainTwo]) := by
  rfl

/-- C8 on a transport that answers 200 with the JSON array of the two sample
domains, and on one that answers 200 with an empty body. -/
theorem GetDomains_decodes_witness :
    (GetDomains (fun _ _ => ⟨some ⟨200, some (bodyOf twoDomainsJSON)⟩, none⟩)
        (jsonUnmarshalDomains emptyBodyError) sampleApi "" World.init).1
      = Outcome.ret (some [domainOne, domainTwo], none) ∧
    (GetDomains (fun _ _ => ⟨some ⟨200, some (bodyOf "")⟩, none⟩)
        (jsonUnmarshalDomains emptyBodyError) sampleApi "" World.init).1
      = Outcome.ret (none, some "unexpected end of JSON input") :=
  ⟨(GetDomains_decodes (fun _ _ => ⟨some ⟨200, some (bodyOf twoDomainsJSON)⟩, none⟩)
      emptyBodyError sampleApi "" World.init).1 [domainOne, domainTwo]
      (by intro d hd; simp only [List.mem_cons, List.mem_singleton, List.not_mem_nil,
            or_false] at hd; rcases hd with rfl | rfl <;> exact ⟨by decide, by decide⟩)
      (by rw [twoDomainsJSON_eq]),
   (GetDomains_decodes (fun _ _ => ⟨some ⟨200, some (bodyOf "")⟩, none⟩)
      emptyBodyError sampleApi "" World.init).2 (bodyOf "") rfl rfl (by rfl)⟩

/-- The decoder on sample bodies: white space is skipped, a key selects its
field whatever its letter case, unknown keys are skipped, `null` gives the nil
slice, and a body that is not an array or `null` does not decode. -/
theorem decodeDomains_sample :
    decodeDomains " [ \x7b \"ID\" : 7 , \"x\" : [1.5e3, null] \x7d ,\n null ] "
      = some (some [{ zeroDomain with ID := 7 }, zeroDomain]) ∧
    decodeDomains "[]" = some (some []) ∧
    decodeDomains "null" = some none ∧
    decodeDomains "" = none ∧
    decodeDomains "<html>" = none ∧
    decodeDomains "\x7b\x7d" = none ∧
    decodeDomains "[\x7b\"id\":\"7\"\x7d]" = none ∧
    decodeDomains "[\x7b\"id\":9223372036854775808\x7d]" = none ∧
    decodeDomains "[\x7b\"id\":-9223372036854775808\x7d]"
      = some (some [{ zeroDomain with ID := -9223372036854775808 }]) := by
  refine ⟨?_, ?_, ?_, ?_, ?_, ?_, ?_, ?_, ?_⟩ <;> rfl

/-! ## Update and delete -/

/-- `UpdateDNSRecord` on any reply whose response, if there is one, carries a
body: the outcome as a function of the error and the status code. -/
theorem UpdateDNSRecord_outcome {C : Type} (t : Transport C) (a : Domeneshop C)
    (domainid dnsrecordid : Int) (value : DNSRecord) (w : World) (reply : Reply)
    (h : t a.client (reqUpdateDNSRecord domainid dnsrecordid value) = reply)
    (hb : ∀ r, reply.resp = some r → r.Body ≠ none) :
    (UpdateDNSRecord t a domainid dnsrecordid value w).1 =
      match reply.err, reply.resp with
      | some e, _ => Outcome.ret (some e)
      | none, none => Outcome.panic
      | none, some r =>
        if r.StatusCode = 204 then Outcome.ret none
        else Outcome.ret (some ("http error: " ++ fmtInt r.StatusCode)) := by
  simp only [reqUpdateDNSRecord, endpointRecord] at h
  simp only [UpdateDNSRecord, send, h]
  rcases reply with ⟨resp, err⟩
  rcases err with _ | e
  · rcases resp with _ | ⟨c, body⟩
    · rfl
    · rcases body with _ | b
      · exact absurd rfl (hb _ rfl)
      · by_cases hc : c = 204 <;> simp [hc]
  · rfl

/-- `DeleteDNSRecord` on any reply: the outcome as a function of the error
and the status code. -/
theorem DeleteDNSRecord_outcome {C : Type} (t : Transport C) (a : Domeneshop C)
    (domainid dnsrecordid : Int) (w : World) (reply : Reply)
    (h : t a.client (reqDeleteDNSRecord domainid dnsrecordid) = reply) :
    (DeleteDNSRecord t a domainid dnsrecordid w).1 =
      match reply.err, reply.resp with
      | some e, _ => Outcome.ret (some e)
      | none, none => Outcome.panic
      | none, some r =>
        if r.StatusCode = 204 then Outcome.ret none
        else Outcome.ret (some ("http error: " ++ fmtInt r.StatusCode)) := by
  simp only [reqDeleteDNSRecord, endpointRecord] at h
  simp only [DeleteDNSRecord, send, h]
  rcases reply with ⟨resp, err⟩
  rcases err with _ | e
  · rcases resp with _ | ⟨c, body⟩
    · rfl
    · by_cases hc : c = 204 <;> simp [hc]
  · rfl

/-- The outcome shared by update and delete returns a nil error exactly on
no error and status 204. -/
theorem outcome_nil_iff (reply : Reply) :
    (match reply.err, reply.resp with
      | some e, _ => Outcome.ret (some e)
      | none, none => Outcome.panic
      | none, some r =>
        if r.StatusCode = 204 then Outcome.ret none
        else Outcome.ret (some ("http error: " ++ fmtInt r.StatusCode)))
      = (Outcome.ret none : Outcome GoError) ↔
    reply.err = none ∧ ∃ r, reply.resp = some r ∧ r.StatusCode = 204 := by
  rcases reply with ⟨resp, err⟩
  rcases err with _ | e
  · rcases resp with _ | ⟨c, body⟩
    · simp
    · by_cases hc : c = 204 <;> simp [hc]
  · simp

/-- Update and delete, where the claimed equivalence holds:
`UpdateDNSRecord`, on replies whose response has a body, and `DeleteDNSRecord`
return a nil error exactly when the transport call returns no error and a
response with status 204; `UpdateDNSRecord` issues exactly one `PUT` for every
record, valid or not; and the outcome of either operation is the same whatever
body the response carries, so no body is decoded. -/
theorem update_delete_succeed_iff_204 {C : Type} (t : Transport C) (a : Domeneshop C)
    (domainid dnsrecordid : Int) (w : World) :
    (∀ (value : DNSRecord),
      (∀ r, (t a.client (reqUpdateDNSRecord domainid dnsrecordid value)).resp = some r →
        r.Body ≠ none) →
      ((UpdateDNSRecord t a domainid dnsrecordid value w).1 = Outcome.ret none ↔
        (t a.client (reqUpdateDNSRecord domainid dnsrecordid value)).err = none ∧
        ∃ r, (t a.client (reqUpdateDNSRecord domainid dnsrecordid value)).resp = some r ∧
          r.StatusCode = 204)) ∧
    ((DeleteDNSRecord t a domainid dnsrecordid w).1 = Outcome.ret none ↔
      (t a.client (reqDeleteDNSRecord domainid dnsrecordid)).err = none ∧
      ∃ r, (t a.client (reqDeleteDNSRecord domainid dnsrecordid)).resp = some r ∧
        r.StatusCode = 204) ∧
    (∀ (value : DNSRecord),
      (UpdateDNSRecord t a domainid dnsrecordid value w).2.calls
        = w.calls ++ [⟨Method.PUT, endpointRecord domainid dnsrecordid, some value⟩]) ∧
    (∀ (u : Transport C) (value : DNSRecord) (c : Int) (b1 b2 : Body) (err : GoError),
      t a.client (reqUpdateDNSRecord domainid dnsrecordid value) = ⟨some ⟨c, some b1⟩, err⟩ →
      u a.client (reqUpdateDNSRecord domainid dnsrecordid value) = ⟨some ⟨c, some b2⟩, err⟩ →
      (UpdateDNSRecord t a domainid dnsrecordid value w).1
        = (UpdateDNSRecord u a domainid dnsrecordid value w).1) ∧
    (∀ (u : Transport C) (c : Int) (b1 b2 : Option Body) (err : GoError),
      t a.client (reqDeleteDNSRecord domainid dnsrecordid) = ⟨some ⟨c, b1⟩, err⟩ →
      u a.client (reqDeleteDNSRecord domainid dnsrecordid) = ⟨some ⟨c, b2⟩, err⟩ →
      (DeleteDNSRecord t a domainid dnsrecordid w).1
        = (DeleteDNSRecord u a domainid dnsrecordid w).1) := by
  refine ⟨?_, ?_, ?_, ?_, ?_⟩
  · intro value hb
    rw [UpdateDNSRecord_outcome t a domainid dnsrecordid value w _ rfl hb]
    exact outcome_nil_iff _
  · rw [DeleteDNSRecord_outcome t a domainid dnsrecordid w _ rfl]
    exact outcome_nil_iff _
  · intro value
    simp only [UpdateDNSRecord, send, endpointRecord]
    rcases t a.client
      ⟨Method.PUT, "/domains/" ++ fmtInt domainid ++ "/dns/" ++ fmtInt dnsrecordid, some value⟩
      with ⟨resp, err⟩
    rcases err with _ | e
    · rcases resp with _ | ⟨c, body⟩
      · rfl
      · rcases body with _ | b
        · rfl
        · rfl
    · rfl
  · intro u value c b1 b2 err ht hu
    rw [UpdateDNSRecord_outcome t a domainid dnsrecordid value w _ ht
          (by intro r hr; cases hr; simp),
        UpdateDNSRecord_outcome u a domainid dnsrecordid value w _ hu
          (by intro r hr; cases hr; simp)]
    cases err <;> rfl
  · intro u c b1 b2 err ht hu
    rw [DeleteDNSRecord_outcome t a domainid dnsrecordid w _ ht,
        DeleteDNSRecord_outcome u a domainid dnsrecordid w _ hu]
    cases err <;> rfl

/-- On concrete transports whose responses have a body: status 204 gives a nil
error, status 200 does not, and a record that fails validation is still sent
by one `PUT`. -/
theorem update_delete_succeed_iff_204_witness :
    (UpdateDNSRecord (statusTransport 204) sampleApi 5 9 recMXNoPriority World.init).1
      = Outcome.ret none ∧
    (DeleteDNSRecord (statusTransport 204) sampleApi 5 9 World.init).1 = Outcome.ret none ∧
    (UpdateDNSRecord (statusTransport 200) sampleApi 5 9 recMXNoPriority World.init).1
      ≠ Outcome.ret none ∧
    validateDNSRecord recMXNoPriority = false ∧
    (UpdateDNSRecord (statusTransport 204) sampleApi 5 9 recMXNoPriority World.init).2.calls
      = [⟨Method.PUT, "/domains/5/dns/9", some recMXNoPriority⟩] :=
  ⟨((update_delete_succeed_iff_204 (statusTransport 204) sampleApi 5 9 World.init).1
      recMXNoPriority (by intro r hr; cases hr; simp [bodyOf])).2
      ⟨rfl, ⟨204, some (bodyOf "")⟩, rfl, rfl⟩,
   (update_delete_succeed_iff_204 (statusTransport 204) sampleApi 5 9 World.init).2.1.2
      ⟨rfl, ⟨204, some (bodyOf "")⟩, rfl, rfl⟩,
   fun hret =>
     absurd (((update_delete_succeed_iff_204 (statusTransport 200) sampleApi 5 9
       World.init).1 recMXNoPriority (by intro r hr; cases hr; simp [bodyOf])).1 hret)
       (by rintro ⟨_, r, hr, h204⟩; cases hr; exact absurd h204 (by decide)),
   by decide,
   (update_delete_succeed_iff_204 (statusTransport 204) sampleApi 5 9 World.init).2.2.1
      recMXNoPriority⟩

/-- C9 fails for `UpdateDNSRecord`: when the transport returns no error and a
204 response whose `Body` is `nil`, it panics on the deferred
`resp.Body.Close()` instead of returning a nil error, while `DeleteDNSRecord`
returns a nil error on that response.  The one `PUT` has been issued. -/
theorem UpdateDNSRecord_panics_on_success :
    UpdateDNSRecord (nilBodyTransport 204) sampleApi 5 9 recValid World.init
      = (Outcome.panic,
          { calls := [⟨Method.PUT, "/domains/5/dns/9", some recValid⟩], closed := false,
            stdout := [] }) ∧
    DeleteDNSRecord (nilBodyTransport 204) sampleApi 5 9 World.init
      = (Outcome.ret none,
          { calls := [⟨Method.DELETE, "/domains/5/dns/9", none⟩], closed := false,
            stdout := [] }) := by
  constructor <;> rfl

/-! ## Construction -/

/-- C10: `New` always returns a non-nil client object whose transport holds
the given HTTP client and the auth value, the base64 text of
`clientid:clientsecret`; the error is non-nil exactly when the given HTTP
client is non-nil, and an error that is returned has the empty message. -/
theorem New_result {C : Type} (clientid clientsecret : String) (client : Option C) :
    (∃ api : Domeneshop C,
      (New clientid clientsecret client).1 = some api ∧
      api.client.client = client ∧
      api.client.auth = EncodeToString (bytesOf (clientid ++ ":" ++ clientsecret))) ∧
    ((New clientid clientsecret client).2 ≠ none ↔ client ≠ none) ∧
    ((New clientid clientsecret client).2 = none ↔ client = none) ∧
    (∀ e : String, (New clientid clientsecret client).2 = some e → e = "") := by
  refine ⟨⟨_, rfl, rfl, rfl⟩, ?_, ?_, ?_⟩
  · cases client <;> simp [New]
  · cases client <;> simp [New]
  · intro e he
    cases client <;> simp [New] at he
    exact he.symm

/-- C10 on sample credentials: with a client the error is the error with the
empty message, without one it is nil; the auth values are the base64 texts of
`Aladdin:open sesame`, `user:pass` and `id:secret`. -/
theorem New_result_witness :
    (∃ api : Domeneshop Unit,
      (New "Aladdin" "open sesame" (some ())).1 = some api ∧
      api.client.client = some () ∧
      api.client.auth = "QWxhZGRpbjpvcGVuIHNlc2FtZQ==") ∧
    (∃ api : Domeneshop Unit,
      (New "user" "pass" (none : Option Unit)).1 = some api ∧
      api.client.client = none ∧
      api.client.auth = "dXNlcjpwYXNz") ∧
    (New "Aladdin" "open sesame" (some ())).2 = some "" ∧
    (New "user" "pass" (none : Option Unit)).2 = none ∧
    New "id" "secret" (some ()) =
      (some { client := { client := some (), auth := "aWQ6c2VjcmV0" } }, some "") :=
  ⟨(New_result "Aladdin" "open sesame" (some ())).1,
   (New_result "user" "pass" (none : Option Unit)).1,
   rfl,
   (New_result "user" "pass" (none : Option Unit)).2.2.1.2 rfl,
   rfl⟩

/-- Sample values of the helpers: decimal formatting and the auth value, with
and without padding. -/
theorem helpers_sample :
    fmtInt 404 = "404" ∧ fmtInt (-7) = "-7" ∧ fmtInt 0 = "0" ∧
    basicAuth "user" "pass" = "dXNlcjpwYXNz" ∧ basicAuth "a" "" = "YTo=" ∧
    basicAuth "ab" "" = "YWI6" ∧ basicAuth "" "" = "Og==" ∧
    validateDNSRecord recValid = true ∧ validateDNSRecord recMXNoPriority = false := by
  decide

end Domeneshop
